import Mathlib

/-!
# MEGAsync sync registry

A shallow embedding of `src/MEGASync/model/Model.cpp`: the `Model` class that
tracks the configured sync pairs, with its collaborators (`Preferences`, the
platform adapter, the Qt signals) made explicit as state and as an event log.

Conventions of the embedding

* An operation is a function from the state before to `Option` of the state
  after; `none` stands for a run that does not complete: a failed `assert`
  in a build without `NDEBUG`, or undefined behaviour (`QList::at` out of
  range, dereferencing a null `shared_ptr`).
* `std::shared_ptr<SyncSetting>` records are values; where the source mutates
  a record through a pointer that aliases the map entry, the embedding stores
  the mutated record back under its key.
* Every signal emitted and every call made to a collaborator is appended to
  `Model.events`, oldest first.
* The recursive mutex is not modelled: operations are atomic steps.
-/

namespace MEGASync

/-! ## Qt containers -/

/-- A `QMap<int, T>` as its list of entries. The operations below keep the entries
in ascending key order, one entry per key, when they start from such a list;
lookup takes the first entry with the key. -/
structure QMap (α : Type) where
  entries : List (Int × α)
deriving DecidableEq, Repr

namespace QMap

variable {α : Type}

/-- The empty map (`QMap()` and the result of `clear()`). -/
def empty : QMap α := ⟨[]⟩

/-- Entry lookup in a list of entries: the first entry with the key. -/
def find : List (Int × α) → Int → Option α
  | [], _ => none
  | (k', v) :: rest, k => if k' = k then some v else find rest k

/-- Ordered insertion of an entry into a list of entries. -/
def place (k : Int) (v : α) : List (Int × α) → List (Int × α)
  | [] => [(k, v)]
  | (k', v') :: rest =>
    if k < k' then (k, v) :: (k', v') :: rest else (k', v') :: place k v rest

/-- The accessor `QMap::value(key)` as an option: the value stored under `key`, if any. -/
def value (m : QMap α) (k : Int) : Option α := find m.entries k

/-- The test `QMap::contains(key)`. -/
def contains (m : QMap α) (k : Int) : Bool := (m.value k).isSome

/-- The operation `QMap::remove(key)`. -/
def remove (m : QMap α) (k : Int) : QMap α :=
  ⟨m.entries.filter (fun e => decide (e.1 ≠ k))⟩

/-- The operation `QMap::insert(key, value)` and assignment through `operator[]`: the value
under `key` is replaced, or a new entry is added in key order. -/
def insert (m : QMap α) (k : Int) (v : α) : QMap α :=
  ⟨place k v (m.remove k).entries⟩

/-- The list `QMap::keys()`, in iteration order. -/
def keys (m : QMap α) : List Int := m.entries.map Prod.fst

/-- The values in iteration order (`begin()` to `end()`). -/
def values (m : QMap α) : List α := m.entries.map Prod.snd

end QMap

/-- The accessor `QList<int>::at(i)`: `none` when `i` is out of range. -/
def QList.at (l : List Int) (i : Int) : Option Int :=
  if 0 ≤ i then l.get? i.toNat else none

/-- The operation `QList<int>::removeAt(i)` for an index in range. -/
def QList.removeAt (l : List Int) (i : Int) : List Int := l.eraseIdx i.toNat

/-! ## Qt UUIDs -/

/-- A `QUuid`: a 128-bit value, here the number drawn by `QUuid::createUuid()`. -/
structure QUuid where
  bits : Nat
deriving DecidableEq, Repr

/-- One lower-case hexadecimal digit. -/
def hexDigit (n : Nat) : Char :=
  if n % 16 < 10 then Char.ofNat (48 + n % 16) else Char.ofNat (87 + n % 16)

/-- The `width` low hexadecimal digits of `n`, most significant first. -/
def hexField : Nat → Nat → List Char
  | 0, _ => []
  | width + 1, n => hexField width (n / 16) ++ [hexDigit n]

/-- The text `QUuid::toString()`: the 38 characters
`\x7bxxxxxxxx-xxxx-xxxx-xxxx-xxxxxxxxxxxx\x7d`, lower-case. -/
def QUuid.toString (u : QUuid) : String :=
  String.mk (Char.ofNat 123 ::
    (hexField 8 (u.bits / 2 ^ 96) ++ [Char.ofNat 45] ++
     hexField 4 (u.bits / 2 ^ 80) ++ [Char.ofNat 45] ++
     hexField 4 (u.bits / 2 ^ 64) ++ [Char.ofNat 45] ++
     hexField 4 (u.bits / 2 ^ 48) ++ [Char.ofNat 45] ++
     hexField 12 u.bits ++ [Char.ofNat 125]))

/-- The conversion `QString::toUpper()`. -/
def QString.toUpper (s : String) : String := String.mk (s.data.map Char.toUpper)

/-! ## SDK objects and records -/

/-- Modelled from the spec: `mega::MegaSync` (SDK header, not under `src/`). The
SDK boundary "supplies sync objects with a tag, local/remote folder
identifiers, active/error state". -/
structure MegaSync where
  tag : Int
  localFolder : String
  megaHandle : Int
  enabled : Bool
  active : Bool
  error : Int
deriving DecidableEq, Repr

/-- Modelled from the spec: the `MegaSync::SyncAdded` codes (SDK header, not
under `src/`) are distinct non-zero "adding" indicators; `0` is a plain
update. Only their being non-zero and pairwise distinct matters; they are
numbered from 1. -/
def SyncAdded.NEW : Int := 1

/-- Modelled from the spec: see `SyncAdded.NEW`. -/
def SyncAdded.FROM_CACHE : Int := 2

/-- Modelled from the spec: see `SyncAdded.NEW`. -/
def SyncAdded.FROM_CACHE_FAILED_TO_RESUME : Int := 3

/-- Modelled from the spec: see `SyncAdded.NEW`. -/
def SyncAdded.FROM_CACHE_REENABLED : Int := 4

/-- Modelled from the spec: see `SyncAdded.NEW`. -/
def SyncAdded.REENABLED_FAILED : Int := 5

/-- Modelled from the spec: the `MegaSync::Error` code of a local folder on a
FAT filesystem (SDK header, not under `src/`); only its being different from
`LOCAL_IS_HGFS` matters. -/
def SyncError.LOCAL_IS_FAT : Int := 17

/-- Modelled from the spec: the `MegaSync::Error` code of a local folder shared
with VMWare (SDK header, not under `src/`). -/
def SyncError.LOCAL_IS_HGFS : Int := 18

/-- The constant `MegaApi::STATE_NONE`, the argument of `notifyItemChange` (SDK header). -/
def STATE_NONE : Int := 0

/-- Modelled from the spec: `SyncSetting` (`SyncSettings.h`, not under `src/`).
"Identity: an integer tag and a string sync identifier (UUID). Attributes:
local folder path, remote folder handle/path, human-readable name, enabled
flag, active flag (derived from whether the underlying SDK sync object is
currently running), last error code." -/
structure SyncSetting where
  tag : Int
  syncID : String
  name : String
  localFolder : String
  megaHandle : Int
  enabled : Bool
  active : Bool
  error : Int
deriving DecidableEq, Repr

/-- Modelled from the spec: the legacy "old sync" description `SyncData` (not
under `src/`) from which `pickInfoFromOldSync` builds a record. -/
structure SyncData where
  name : String
  syncID : String
  localFolder : String
  megaHandle : Int
  enabled : Bool
deriving DecidableEq, Repr

namespace SyncSetting

/-- Modelled from the spec: `SyncSetting::setSync` (not under `src/`) "updates
the existing record's live SDK handle in place": everything the SDK object
supplies (tag, folders, enabled, active, error) is taken from it; the
MEGAsync-specific fields "that the SDK does not retain" (name, UUID) stay. -/
def setSync (cs : SyncSetting) (sync : MegaSync) : SyncSetting :=
  { cs with
    tag := sync.tag
    localFolder := sync.localFolder
    megaHandle := sync.megaHandle
    enabled := sync.enabled
    active := sync.active
    error := sync.error }

/-- Modelled from the spec: the constructor `SyncSetting(MegaSync*)` (not under
`src/`) "constructs a fresh record directly from the SDK object": no name and
no sync identifier yet. -/
def ofSync (sync : MegaSync) : SyncSetting :=
  setSync ⟨0, "", "", "", 0, false, false, 0⟩ sync

/-- Modelled from the spec: the constructor `SyncSetting(const SyncData&, bool)`
(not under `src/`) "builds a record from a legacy description"; there is no
SDK sync object yet, so the record is not active and carries no error. -/
def ofSyncData (osd : SyncData) (_loadedFromPreviousSessions : Bool) : SyncSetting :=
  ⟨0, osd.syncID, osd.name, osd.localFolder, osd.megaHandle, osd.enabled, false, 0⟩

/-- The setter `SyncSetting::setTag`. -/
def setTag (cs : SyncSetting) (tag : Int) : SyncSetting := { cs with tag := tag }

/-- The setter `SyncSetting::setSyncID`. -/
def setSyncID (cs : SyncSetting) (id : String) : SyncSetting := { cs with syncID := id }

end SyncSetting

/-! ## Collaborators -/

/-- Modelled from the spec: the persistence cache `Preferences` (not under
`src/`): whether a user session is active, the records loaded from previous
executions, the stored sync records, the stored unattended-disabled tag set
and the one-time flags. -/
structure Preferences where
  logged : Bool
  loadedSyncsMap : QMap SyncSetting
  syncSettings : QMap SyncSetting
  disabledSyncTags : Finset Int
  firstSyncDone : Bool
  fatWarningShown : Bool
  hgfsWarningDone : Bool
  leftPaneIconsDisabled : Bool
deriving DecidableEq

/-- A signal emitted by `Model`, or a call it makes to a collaborator. -/
inductive Event where
  /-- Call of `Platform::syncFolderAdded(localFolder, name, syncID)` -/
  | syncFolderAdded (localFolder name syncID : String)
  /-- Call of `Platform::syncFolderRemoved(localFolder, name, syncID)` -/
  | syncFolderRemoved (localFolder name syncID : String)
  /-- Call of `Platform::addSyncToLeftPane(localFolder, name, syncID)` -/
  | addSyncToLeftPane (localFolder name syncID : String)
  /-- Call of `MegaSyncApp->notifyItemChange(localFolder, state)` -/
  | notifyItemChange (localFolder : String) (state : Int)
  /-- Call of `MegaSyncApp->getMegaApi()->sendEvent(code, message)` -/
  | sendEvent (code : Nat) (message : String)
  /-- Dialog `QMegaMessageBox::warning` about a FAT filesystem -/
  | warnFat
  /-- Dialog `QMegaMessageBox::warning` about a VMWare shared folder -/
  | warnHgfs
  /-- Call of `preferences->setFatWarningShown()` -/
  | setFatWarningShown
  /-- Call of `preferences->setOneTimeActionDone(ONE_TIME_ACTION_HGFS_WARNING, true)` -/
  | setHgfsWarningDone
  /-- Call of `preferences->writeSyncSetting(cs)` -/
  | writeSyncSetting (cs : SyncSetting)
  /-- Call of `preferences->removeSyncSetting(cs)` -/
  | removeSyncSetting (cs : SyncSetting)
  /-- Call of `preferences->removeAllFolders()` -/
  | removeAllFolders
  /-- Call of `preferences->removeAllSyncSettings()` -/
  | removeAllSyncSettings
  /-- Call of `preferences->setDisabledSyncTags(tags)` -/
  | setDisabledSyncTags (tags : Finset Int)
  /-- Signal `emit syncRemoved(cs)` -/
  | syncRemoved (cs : SyncSetting)
  /-- Signal `emit syncStateChanged(cs)` -/
  | syncStateChanged (cs : SyncSetting)
  /-- Signal `emit syncDisabledListUpdated()` -/
  | syncDisabledListUpdated
deriving DecidableEq

/-- What the build and the machine fix for a run: the `NDEBUG` and `WIN32`
compile-time switches, the filesystem as seen through
`QDir::toNativeSeparators(QFileInfo(p).canonicalFilePath())`, and
`MegaSyncApp->getPrevVersion()`. -/
structure Env where
  ndebug : Bool
  win32 : Bool
  canonicalNative : String → String
  prevVersion : Int

/-- The state of `Model`: its data members, the `Preferences` singleton it
points to, and the log of events so far. -/
structure Model where
  preferences : Preferences
  isFirstSyncDone : Bool
  configuredSyncs : List Int
  configuredSyncsMap : QMap SyncSetting
  unattendedDisabledSyncs : Finset Int
  events : List Event
deriving DecidableEq

/-! ## Preferences operations -/

namespace Preferences

/-- Modelled from the spec: `Preferences::writeSyncSetting` (not under `src/`),
"write/overwrite one record" of the persistence cache. -/
def writeSyncSetting (p : Preferences) (cs : SyncSetting) : Preferences :=
  { p with syncSettings := p.syncSettings.insert cs.tag cs }

/-- Modelled from the spec: `Preferences::removeSyncSetting` (not under `src/`),
"remove one record" of the persistence cache. -/
def removeSyncSetting (p : Preferences) (cs : SyncSetting) : Preferences :=
  { p with syncSettings := p.syncSettings.remove cs.tag }

/-- Modelled from the spec: `Preferences::removeAllFolders` (not under `src/`),
"remove all records" of the persistence cache. -/
def removeAllFolders (p : Preferences) : Preferences :=
  { p with syncSettings := QMap.empty }

/-- Modelled from the spec: `Preferences::removeAllSyncSettings` (not under
`src/`), "remove all records" of the persistence cache. -/
def removeAllSyncSettings (p : Preferences) : Preferences :=
  { p with syncSettings := QMap.empty }

/-- Modelled from the spec: `Preferences::setDisabledSyncTags` (not under
`src/`), "write the unattended-disabled tag set". -/
def setDisabledSyncTags (p : Preferences) (tags : Finset Int) : Preferences :=
  { p with disabledSyncTags := tags }

/-- Modelled from the spec: `Preferences::setFatWarningShown` (not under `src/`),
write of a "warning shown" one-time flag. -/
def setFatWarningShown (p : Preferences) : Preferences :=
  { p with fatWarningShown := true }

/-- Modelled from the spec: `Preferences::setOneTimeActionDone` for
`ONE_TIME_ACTION_HGFS_WARNING` (not under `src/`), write of a "warning shown"
one-time flag. -/
def setHgfsWarningDone (p : Preferences) (done : Bool) : Preferences :=
  { p with hgfsWarningDone := done }

end Preferences

/-! ## The operations of `Model` -/

/-- The macro `assert(c)` of `<assert.h>`: nothing under `NDEBUG`; otherwise the run
goes on only if the condition evaluates, and evaluates to true. The condition
is an `Option` because evaluating it can itself be undefined. -/
def assert (env : Env) (c : Option Bool) : Option Unit :=
  if env.ndebug then some ()
  else match c with
    | some true => some ()
    | _ => none

namespace Model

/-- The state after `Model::Model()`: empty collections, an empty log. The
constructor does not set `isFirstSyncDone`, so its initial value is a
parameter. -/
def init (p : Preferences) (firstSyncDone : Bool) : Model :=
  ⟨p, firstSyncDone, [], QMap.empty, ∅, []⟩

/-- Append one event to the log. -/
def emit (m : Model) (e : Event) : Model := { m with events := m.events ++ [e] }

/-- A record mutated through a `shared_ptr` that aliases the entry of
`configuredSyncsMap` under `tag`: the entry is the mutated record. -/
def store (m : Model) (tag : Int) (cs : SyncSetting) : Model :=
  { m with configuredSyncsMap := m.configuredSyncsMap.insert tag cs }

/-- Lines 29-32, `Model::hasUnattendedDisabledSyncs`. -/
def hasUnattendedDisabledSyncs (m : Model) : Bool :=
  decide (m.unattendedDisabledSyncs.card ≠ 0)

/-- Lines 362-368, `Model::saveUnattendedDisabledSyncs`. -/
def saveUnattendedDisabledSyncs (m : Model) : Model :=
  if m.preferences.logged then
    ({ m with preferences := m.preferences.setDisabledSyncTags m.unattendedDisabledSyncs }).emit
      (.setDisabledSyncTags m.unattendedDisabledSyncs)
  else m

/-- Lines 370-375, `Model::addUnattendedDisabledSync`. -/
def addUnattendedDisabledSync (m : Model) (tag : Int) : Model :=
  let m := { m with unattendedDisabledSyncs := insert tag m.unattendedDisabledSyncs }
  let m := m.saveUnattendedDisabledSyncs
  m.emit .syncDisabledListUpdated

/-- Lines 377-382, `Model::removeUnattendedDisabledSync`. -/
def removeUnattendedDisabledSync (m : Model) (tag : Int) : Model :=
  let m := { m with unattendedDisabledSyncs := m.unattendedDisabledSyncs.erase tag }
  let m := m.saveUnattendedDisabledSyncs
  m.emit .syncDisabledListUpdated

/-- Lines 384-390, `Model::setUnattendedDisabledSyncs`. -/
def setUnattendedDisabledSyncs (m : Model) (tags : Finset Int) : Model :=
  let m := { m with unattendedDisabledSyncs := tags }
  let m := m.saveUnattendedDisabledSyncs
  m.emit .syncDisabledListUpdated

/-- Lines 392-397, `Model::dismissUnattendedDisabledSyncs`. -/
def dismissUnattendedDisabledSyncs (m : Model) : Model :=
  let m := { m with unattendedDisabledSyncs := ∅ }
  let m := m.saveUnattendedDisabledSyncs
  m.emit .syncDisabledListUpdated

/-- Lines 161-165, `Model::deactivateSync`. -/
def deactivateSync (m : Model) (syncSetting : SyncSetting) : Model :=
  let m := m.emit
    (.syncFolderRemoved syncSetting.localFolder syncSetting.name syncSetting.syncID)
  m.emit (.notifyItemChange syncSetting.localFolder STATE_NONE)

/-- Lines 116-128 of `Model::activateSync`: the value of `sl == slc`, where `sl`
is the local folder (without a leading `\\?\` on Windows) and `slc` its
canonical path with native separators. -/
def localFolderIsCanonical (env : Env) (localFolder : String) : Bool :=
  let sl := localFolder
  let sl := if env.win32 && sl.startsWith "\\\\?\\" then sl.drop 4 else sl
  let slc := env.canonicalNative sl
  sl == slc

/-- Lines 114-159, `Model::activateSync`. The record is mutated through the
pointer, so the mutated record is returned with the state; `uuid` is what
`QUuid::createUuid()` yields if it is called. -/
def activateSync (env : Env) (m : Model) (syncSetting : SyncSetting) (uuid : QUuid) :
    Option (Model × SyncSetting) :=
  -- the block under `#ifndef NDEBUG`
  match assert env (some (localFolderIsCanonical env syncSetting.localFolder)) with
  | none => none
  | some _ =>
    -- set sync UID
    let syncSetting :=
      if syncSetting.syncID.isEmpty then
        syncSetting.setSyncID (QString.toUpper uuid.toString)
      else syncSetting
    -- send event for the first sync
    let m :=
      if !m.isFirstSyncDone && !m.preferences.firstSyncDone then
        m.emit (.sendEvent 99501 "MEGAsync first sync")
      else m
    let m := { m with isFirstSyncDone := true }
    let m :=
      if !m.preferences.fatWarningShown && syncSetting.error == SyncError.LOCAL_IS_FAT then
        let m := m.emit .warnFat
        ({ m with preferences := m.preferences.setFatWarningShown }).emit .setFatWarningShown
      else if !m.preferences.hgfsWarningDone
          && syncSetting.error == SyncError.LOCAL_IS_HGFS then
        let m := m.emit .warnHgfs
        ({ m with preferences := m.preferences.setHgfsWarningDone true }).emit
          .setHgfsWarningDone
      else m
    some (m.emit (.syncFolderAdded syncSetting.localFolder syncSetting.name syncSetting.syncID),
          syncSetting)

/-- Lines 181-207 of `Model::updateSyncSettings`: find the record of the sync's
tag or create it. Yields the state, the record `cs` (stored under the tag),
and `wasActive`, `wasInactive` as they stand at line 208. -/
def locateSync (env : Env) (m : Model) (sync : MegaSync) (addingState : Int) :
    Option (Model × SyncSetting × Bool × Bool) :=
  if m.configuredSyncsMap.contains sync.tag then
    -- existing configuration
    match m.configuredSyncsMap.value sync.tag with
    | none => none
    | some cs =>
      let wasActive := cs.active
      let wasInactive := !cs.active
      let cs := cs.setSync sync
      some (m.store sync.tag cs, cs, wasActive, wasInactive)
  else
    -- new configuration (new or resumed)
    match assert env (some (decide (addingState ≠ 0))) with
    | none => none
    | some _ =>
      let loaded := m.preferences.loadedSyncsMap
      let cs :=
        match loaded.value sync.tag with
        | some l => l.setSync sync
        | none => SyncSetting.ofSync sync
      let m := m.store sync.tag cs
      let m := { m with configuredSyncs := m.configuredSyncs ++ [sync.tag] }
      some (m, cs, false, false)

/-- Lines 210-218 of `Model::updateSyncSettings`: `wasActive` and `wasInactive`
after the `if (addingState)` block. -/
def transitionIntent (addingState : Int) (cs : SyncSetting) (wasActive wasInactive : Bool) :
    Bool × Bool :=
  if addingState ≠ 0 then
    (((addingState == SyncAdded.FROM_CACHE) && cs.active)
        || (addingState == SyncAdded.FROM_CACHE_FAILED_TO_RESUME),
     ((addingState == SyncAdded.FROM_CACHE) && !cs.active)
        || (addingState == SyncAdded.NEW) || (addingState == SyncAdded.FROM_CACHE_REENABLED)
        || (addingState == SyncAdded.REENABLED_FAILED))
  else (wasActive, wasInactive)

/-- Lines 220-228 of `Model::updateSyncSettings`: the activation and the
deactivation edge. -/
def applyTransition (env : Env) (m : Model) (tag : Int) (cs : SyncSetting)
    (wasActive wasInactive : Bool) (uuid : QUuid) : Option (Model × SyncSetting) :=
  let afterActivate : Option (Model × SyncSetting) :=
    if cs.active && wasInactive then
      match activateSync env m cs uuid with
      | none => none
      | some (m, cs) => some (m.store tag cs, cs)
    else some (m, cs)
  match afterActivate with
  | none => none
  | some (m, cs) =>
    if !cs.active && wasActive then some (deactivateSync m cs, cs) else some (m, cs)

/-- Lines 167-245, `Model::updateSyncSettings`. A null `sync` is `none`; the
result is the state after and the returned record (`none` for `nullptr`). -/
def updateSyncSettings (env : Env) (m : Model) (sync : Option MegaSync) (addingState : Int)
    (uuid : QUuid) : Option (Model × Option SyncSetting) :=
  match sync with
  | none => some (m, none)
  | some sync =>
    match locateSync env m sync addingState with
    | none => none
    | some (m, cs, wasActive, wasInactive) =>
      let (wasActive, wasInactive) := transitionIntent addingState cs wasActive wasInactive
      match applyTransition env m sync.tag cs wasActive wasInactive uuid with
      | none => none
      | some (m, cs) =>
        -- we store MEGAsync specific fields into cache
        let m := ({ m with preferences := m.preferences.writeSyncSetting cs }).emit
          (.writeSyncSetting cs)
        -- the block under `#ifdef WIN32`
        let m :=
          if env.win32 && (env.prevVersion != 0 && decide (env.prevVersion ≤ 3001)
              && !m.preferences.leftPaneIconsDisabled
              && addingState == SyncAdded.FROM_CACHE && cs.active) then
            m.emit (.addSyncToLeftPane cs.localFolder cs.name cs.syncID)
          else m
        some (m.emit (.syncStateChanged cs), some cs)

/-- Lines 34-55, `Model::removeSyncedFolder`. -/
def removeSyncedFolder (env : Env) (m : Model) (num : Int) : Option Model :=
  let inMap : Option Bool :=
    if num ≤ m.configuredSyncs.length then
      (QList.at m.configuredSyncs num).map m.configuredSyncsMap.contains
    else some false
  match assert env inMap with
  | none => none
  | some _ =>
    match QList.at m.configuredSyncs num with
    | none => none
    | some key =>
      -- `operator[]` on an absent key yields a null pointer, dereferenced next
      match m.configuredSyncsMap.value key with
      | none => none
      | some cs =>
        let m := if cs.active then deactivateSync m cs else m
        let tag := cs.tag
        match assert env (some m.preferences.logged) with
        | none => none
        | some _ =>
          let m := ({ m with preferences := m.preferences.removeSyncSetting cs }).emit
            (.removeSyncSetting cs)
          let m := { m with configuredSyncsMap := m.configuredSyncsMap.remove key }
          let m := { m with configuredSyncs := QList.removeAt m.configuredSyncs num }
          let m := m.removeUnattendedDisabledSync tag
          some (m.emit (.syncRemoved cs))

/-- Lines 57-92, `Model::removeSyncedFolderByTag`. -/
def removeSyncedFolderByTag (env : Env) (m : Model) (tag : Int) : Option Model :=
  if !m.configuredSyncsMap.contains tag then some m
  else
    match m.configuredSyncsMap.value tag with
    | none => none
    | some cs =>
      let m := if cs.active then deactivateSync m cs else m
      match assert env (some m.preferences.logged) with
      | none => none
      | some _ =>
        let m := ({ m with preferences := m.preferences.removeSyncSetting cs }).emit
          (.removeSyncSetting cs)
        let m := { m with configuredSyncsMap := m.configuredSyncsMap.remove tag }
        -- the `while` loop erases every occurrence of `tag`
        let m := { m with configuredSyncs := m.configuredSyncs.filter (fun t => decide (t ≠ tag)) }
        let m := m.removeUnattendedDisabledSync tag
        some (m.emit (.syncRemoved cs))

/-- Lines 94-112, `Model::removeAllFolders`. -/
def removeAllFolders (env : Env) (m : Model) : Option Model :=
  match assert env (some m.preferences.logged) with
  | none => none
  | some _ =>
    -- remove all configured syncs
    let m := ({ m with preferences := m.preferences.removeAllFolders }).emit .removeAllFolders
    let m := m.configuredSyncsMap.values.foldl
      (fun m cs => if cs.active then deactivateSync m cs else m) m
    let m := { m with configuredSyncs := [] }
    let m := { m with configuredSyncsMap := QMap.empty }
    some { m with unattendedDisabledSyncs := ∅ }

/-- Lines 247-255, `Model::rewriteSyncSettings`. -/
def rewriteSyncSettings (m : Model) : Option Model :=
  let m := ({ m with preferences := m.preferences.removeAllSyncSettings }).emit
    .removeAllSyncSettings
  m.configuredSyncs.foldl
    (fun acc tag =>
      match acc with
      | none => none
      | some m =>
        -- `operator[]` on an absent key yields a null pointer
        match m.configuredSyncsMap.value tag with
        | none => none
        | some cs =>
          some (({ m with preferences := m.preferences.writeSyncSetting cs }).emit
            (.writeSyncSetting cs)))
    (some m)

/-- Lines 257-273, `Model::pickInfoFromOldSync`. -/
def pickInfoFromOldSync (env : Env) (m : Model) (osd : SyncData) (tag : Int)
    (loadedFromPreviousSessions : Bool) : Option Model :=
  match assert env (some (m.preferences.logged || loadedFromPreviousSessions)) with
  | none => none
  | some _ =>
    match assert env (some (!m.configuredSyncsMap.contains tag)) with
    | none => none
    | some _ =>
      let cs := SyncSetting.ofSyncData osd loadedFromPreviousSessions
      let m := m.store tag cs
      -- assign the new tag given by the sdk
      let cs := cs.setTag tag
      let m := m.store tag cs
      match assert env (some (!m.configuredSyncs.contains tag)) with
      | none => none
      | some _ =>
        let m := { m with configuredSyncs := m.configuredSyncs ++ [tag] }
        some (({ m with preferences := m.preferences.writeSyncSetting cs }).emit
          (.writeSyncSetting cs))

/-- Lines 275-282, `Model::reset`. -/
def reset (m : Model) : Model :=
  let m := { m with configuredSyncs := [] }
  let m := { m with configuredSyncsMap := QMap.empty }
  let m := { m with unattendedDisabledSyncs := ∅ }
  { m with isFirstSyncDone := false }

/-- Lines 284-288, `Model::getNumSyncedFolders`. -/
def getNumSyncedFolders (m : Model) : Int := m.configuredSyncs.length

/-- Lines 352-360, `Model::getSyncSettingByTag`; `none` is `nullptr`. -/
def getSyncSettingByTag (m : Model) (tag : Int) : Option SyncSetting :=
  if m.configuredSyncsMap.contains tag then m.configuredSyncsMap.value tag else none

end Model

/-! ## Runs of the registry -/

/-- One public operation of `Model` with its arguments, or a change made to the
shared `Preferences` singleton by its other users (login, logout, settings). -/
inductive Op where
  | updateSyncSettings (sync : Option MegaSync) (addingState : Int) (uuid : QUuid)
  | removeSyncedFolder (num : Int)
  | removeSyncedFolderByTag (tag : Int)
  | removeAllFolders
  | rewriteSyncSettings
  | pickInfoFromOldSync (osd : SyncData) (tag : Int) (loadedFromPreviousSessions : Bool)
  | reset
  | addUnattendedDisabledSync (tag : Int)
  | removeUnattendedDisabledSync (tag : Int)
  | setUnattendedDisabledSyncs (tags : Finset Int)
  | dismissUnattendedDisabledSyncs
  | preferencesChanged (p : Preferences)

/-- The state after an operation, `none` if the run does not complete. -/
def Op.run (env : Env) (m : Model) : Op → Option Model
  | .updateSyncSettings sync addingState uuid =>
    (m.updateSyncSettings env sync addingState uuid).map Prod.fst
  | .removeSyncedFolder num => m.removeSyncedFolder env num
  | .removeSyncedFolderByTag tag => m.removeSyncedFolderByTag env tag
  | .removeAllFolders => m.removeAllFolders env
  | .rewriteSyncSettings => m.rewriteSyncSettings
  | .pickInfoFromOldSync osd tag loaded => m.pickInfoFromOldSync env osd tag loaded
  | .reset => some m.reset
  | .addUnattendedDisabledSync tag => some (m.addUnattendedDisabledSync tag)
  | .removeUnattendedDisabledSync tag => some (m.removeUnattendedDisabledSync tag)
  | .setUnattendedDisabledSyncs tags => some (m.setUnattendedDisabledSyncs tags)
  | .dismissUnattendedDisabledSyncs => some m.dismissUnattendedDisabledSyncs
  | .preferencesChanged p => some { m with preferences := p }

/-- The contract a caller keeps whatever the build: `pickInfoFromOldSync` is
called for a tag that is not tracked (line 263, "this should always be the
case"). Builds without `NDEBUG` enforce it by an assertion. -/
def Op.pre (m : Model) : Op → Prop
  | .pickInfoFromOldSync _ tag _ => m.configuredSyncsMap.contains tag = false
  | _ => True

/-- The states of a run: the state after the constructor, and every state a
completed operation leads to from one of them. -/
inductive Reachable (env : Env) : Model → Prop where
  | init (p : Preferences) (firstSyncDone : Bool) : Reachable env (Model.init p firstSyncDone)
  | step {m m' : Model} (op : Op) :
      Reachable env m → op.pre m → op.run env m = some m' → Reachable env m'

/-- The registry invariant: the sequence and the map hold the same tags, no tag
is twice in the sequence, and a record is stored under its own tag. -/
structure Model.Consistent (m : Model) : Prop where
  sameTags : ∀ t, t ∈ m.configuredSyncs ↔ m.configuredSyncsMap.contains t = true
  nodup : m.configuredSyncs.Nodup
  keyed : ∀ t cs, m.configuredSyncsMap.value t = some cs → cs.tag = t

/-- The number of `Platform::syncFolderAdded` calls in a log: `activateSync` makes
exactly one when it runs to its end and nothing else makes any, so this is
the number of times activation handling ran. -/
def activations (evs : List Event) : Nat :=
  evs.countP (fun e => match e with | .syncFolderAdded _ _ _ => true | _ => false)

/-- The number of `Platform::syncFolderRemoved` calls in a log: `deactivateSync`
makes exactly one and nothing else makes any, so this is the number of times
deactivation handling ran. -/
def deactivations (evs : List Event) : Nat :=
  evs.countP (fun e => match e with | .syncFolderRemoved _ _ _ => true | _ => false)

/-! ## Lemmas on the containers -/

namespace QMap

variable {α : Type}

theorem find_filter (l : List (Int × α)) (k k' : Int) :
    find (l.filter (fun e => decide (e.1 ≠ k))) k' = if k' = k then none else find l k' := by
  induction l with
  | nil => simp [find]
  | cons e rest ih =>
    obtain ⟨a, v⟩ := e
    by_cases ha : a = k
    · subst ha
      by_cases hk : k' = a
      · subst hk; simpa using ih
      · have : ¬ a = k' := fun h => hk h.symm
        simp [find, this, hk] at ih ⊢
        exact ih
    · by_cases hk : k' = k
      · subst hk
        simp [List.filter, ha, find] at ih ⊢
        exact ih
      · simp [List.filter, ha, find, hk] at ih ⊢
        rw [ih]

theorem find_place (l : List (Int × α)) (k k' : Int) (v : α)
    (h : ∀ e ∈ l, e.1 ≠ k) :
    find (place k v l) k' = if k' = k then some v else find l k' := by
  induction l with
  | nil =>
    by_cases hk : k' = k
    · subst hk; simp [place, find]
    · have : ¬ k = k' := fun h => hk h.symm
      simp [place, find, hk, this]
  | cons e rest ih =>
    obtain ⟨a, w⟩ := e
    have hak : a ≠ k := h (a, w) (List.mem_cons_self _ _)
    have ih' := ih (fun e he => h e (List.mem_cons_of_mem _ he))
    by_cases hlt : k < a
    · by_cases hk : k' = k
      · subst hk; simp [place, find, hlt]
      · have : ¬ k = k' := fun h => hk h.symm
        simp [place, find, hlt, hk, this]
    · by_cases hk : k' = k
      · subst hk
        simp [place, find, hlt, hak] at ih' ⊢
        exact ih'
      · simp only [place, hlt, if_false, find, hk] at ih' ⊢
        rw [ih']

theorem value_remove (m : QMap α) (k k' : Int) :
    (m.remove k).value k' = if k' = k then none else m.value k' := by
  simp only [value, remove]
  exact find_filter m.entries k k'

theorem value_insert (m : QMap α) (k k' : Int) (v : α) :
    (m.insert k v).value k' = if k' = k then some v else m.value k' := by
  simp only [value, insert, remove]
  rw [find_place _ _ _ _ (by simp), find_filter]
  by_cases hk : k' = k <;> simp [hk]

theorem value_empty (k : Int) : (empty : QMap α).value k = none := rfl

theorem contains_empty (k : Int) : (empty : QMap α).contains k = false := rfl

theorem contains_remove (m : QMap α) (k k' : Int) :
    (m.remove k).contains k' = (decide (k' ≠ k) && m.contains k') := by
  simp only [contains, value_remove]
  by_cases hk : k' = k <;> simp [hk]

theorem contains_insert (m : QMap α) (k k' : Int) (v : α) :
    (m.insert k v).contains k' = (decide (k' = k) || m.contains k') := by
  simp only [contains, value_insert]
  by_cases hk : k' = k <;> simp [hk]

theorem mem_keys_iff (m : QMap α) (k : Int) : k ∈ m.keys ↔ m.contains k = true := by
  obtain ⟨l⟩ := m
  simp only [keys, contains, value]
  induction l with
  | nil => simp [find]
  | cons e rest ih =>
    obtain ⟨a, w⟩ := e
    by_cases ha : a = k
    · subst ha; simp [find]
    · have : ¬ k = a := fun h => ha h.symm
      simp only [List.map_cons, List.mem_cons, this, false_or, find, ha, if_false]
      exact ih

end QMap

/-- The records passed to `preferences->writeSyncSetting` in a log, in order. -/
def writtenSettings (evs : List Event) : List SyncSetting :=
  evs.filterMap (fun e => match e with | .writeSyncSetting cs => some cs | _ => none)

/-- The records carried by the `syncStateChanged` signals of a log, in order. -/
def stateChangedSignals (evs : List Event) : List SyncSetting :=
  evs.filterMap (fun e => match e with | .syncStateChanged cs => some cs | _ => none)

/-- What a step leaves alone when it only talks to collaborators: the three
collaborations of the registry and the stored sync records. -/
structure Model.SameRegistry (m m' : Model) : Prop where
  syncs : m'.configuredSyncs = m.configuredSyncs
  map : m'.configuredSyncsMap = m.configuredSyncsMap
  disabled : m'.unattendedDisabledSyncs = m.unattendedDisabledSyncs
  cache : m'.preferences.syncSettings = m.preferences.syncSettings
  loaded : m'.preferences.loadedSyncsMap = m.preferences.loadedSyncsMap
  logged : m'.preferences.logged = m.preferences.logged
  tags : m'.preferences.disabledSyncTags = m.preferences.disabledSyncTags

/-! ## Lemmas on activation and deactivation -/

theorem deactivateSync_events (m : Model) (cs : SyncSetting) :
    (m.deactivateSync cs).events = m.events ++
      [.syncFolderRemoved cs.localFolder cs.name cs.syncID,
       .notifyItemChange cs.localFolder STATE_NONE] := by
  simp [Model.deactivateSync, Model.emit]

theorem deactivateSync_same (m : Model) (cs : SyncSetting) :
    m.SameRegistry (m.deactivateSync cs) := by
  constructor <;> rfl

theorem deactivateSync_preferences (m : Model) (cs : SyncSetting) :
    (m.deactivateSync cs).preferences = m.preferences := rfl

theorem deactivateSync_isFirstSyncDone (m : Model) (cs : SyncSetting) :
    (m.deactivateSync cs).isFirstSyncDone = m.isFirstSyncDone := rfl

theorem activateSync_isSome (env : Env) (m : Model) (cs : SyncSetting) (uuid : QUuid) :
    (m.activateSync env cs uuid).isSome =
      (env.ndebug || Model.localFolderIsCanonical env cs.localFolder) := by
  unfold Model.activateSync assert
  cases h1 : env.ndebug <;> cases h2 : Model.localFolderIsCanonical env cs.localFolder <;>
    simp

theorem activateSync_some {env : Env} {m m2 : Model} {cs cs2 : SyncSetting} {uuid : QUuid}
    (h : m.activateSync env cs uuid = some (m2, cs2)) :
    cs2 = (if cs.syncID.isEmpty then cs.setSyncID (QString.toUpper uuid.toString) else cs) ∧
    m.SameRegistry m2 ∧ m2.isFirstSyncDone = true ∧
    ∃ new, m2.events = m.events ++ new ∧ activations new = 1 ∧ deactivations new = 0 ∧
      writtenSettings new = [] ∧ stateChangedSignals new = [] := by
  unfold Model.activateSync at h
  split at h
  · exact absurd h (by simp)
  · simp only [Option.some.injEq, Prod.mk.injEq] at h
    obtain ⟨h1, h2⟩ := h
    subst h1 h2
    refine ⟨rfl, ?_, ?_, ?_⟩
    · constructor <;> (simp only [Model.emit]; split_ifs <;> rfl)
    · simp only [Model.emit]; split_ifs <;> rfl
    · simp only [Model.emit]
      split_ifs <;>
        exact ⟨_, (by simp [List.append_assoc]; rfl), by simp [activations],
          by simp [deactivations], by simp [writtenSettings], by simp [stateChangedSignals]⟩

/-! ## Lemmas on reconciliation -/

/-- The record a reconciliation starts from, before the SDK object is set on it:
the tracked record, else the record loaded from previous executions, else a
blank one. -/
def Model.baseRecord (m : Model) (sync : MegaSync) : SyncSetting :=
  match m.configuredSyncsMap.value sync.tag with
  | some old => old
  | none =>
    match m.preferences.loadedSyncsMap.value sync.tag with
    | some l => l
    | none => ⟨0, "", "", "", 0, false, false, 0⟩

theorem locateSync_some {env : Env} {m m1 : Model} {sync : MegaSync} {addingState : Int}
    {cs : SyncSetting} {wasActive wasInactive : Bool}
    (h : m.locateSync env sync addingState = some (m1, cs, wasActive, wasInactive)) :
    cs = (m.baseRecord sync).setSync sync ∧
    m1.events = m.events ∧ m1.preferences = m.preferences ∧
    m1.isFirstSyncDone = m.isFirstSyncDone ∧
    m1.unattendedDisabledSyncs = m.unattendedDisabledSyncs ∧
    m1.configuredSyncsMap = m.configuredSyncsMap.insert sync.tag cs ∧
    m1.configuredSyncs = (if m.configuredSyncsMap.contains sync.tag then m.configuredSyncs
      else m.configuredSyncs ++ [sync.tag]) ∧
    wasActive = (match m.configuredSyncsMap.value sync.tag with
      | some old => old.active | none => false) ∧
    wasInactive = (match m.configuredSyncsMap.value sync.tag with
      | some old => !old.active | none => false) ∧
    (m.configuredSyncsMap.contains sync.tag = true ∨ env.ndebug = true ∨ addingState ≠ 0) := by
  unfold Model.locateSync at h
  by_cases hc : m.configuredSyncsMap.contains sync.tag = true
  · rw [if_pos hc] at h
    cases hv : m.configuredSyncsMap.value sync.tag with
    | none => simp [QMap.contains, hv] at hc
    | some old =>
      simp only [hv, Option.some.injEq, Prod.mk.injEq] at h
      obtain ⟨h1, h2, h3, h4⟩ := h
      subst h1 h2 h3 h4
      simp [Model.baseRecord, hv, Model.store, hc]
  · rw [if_neg hc] at h
    have hv : m.configuredSyncsMap.value sync.tag = none := by
      simpa [QMap.contains] using hc
    have hc' : m.configuredSyncsMap.contains sync.tag = false := by simpa using hc
    cases ha : assert env (some (decide (addingState ≠ 0))) with
    | none => rw [ha] at h; exact absurd h (by simp)
    | some _ =>
      have hpre : env.ndebug = true ∨ addingState ≠ 0 := by
        unfold assert at ha
        by_cases hn : env.ndebug = true
        · exact Or.inl hn
        · right
          intro h0
          simp [hn, h0] at ha
      rw [ha] at h
      simp only [Option.some.injEq, Prod.mk.injEq] at h
      obtain ⟨h1, h2, h3, h4⟩ := h
      subst h1 h2 h3 h4
      refine ⟨?_, rfl, rfl, rfl, rfl, ?_, ?_, ?_, ?_, Or.inr hpre⟩
      · simp only [Model.baseRecord, hv]
        cases m.preferences.loadedSyncsMap.value sync.tag <;> rfl
      · rfl
      · simp [hc', Model.store]
      · simp [hv]
      · simp [hv]

theorem locateSync_isSome (env : Env) (m : Model) (sync : MegaSync) (addingState : Int)
    (h : m.configuredSyncsMap.contains sync.tag = true ∨ env.ndebug = true ∨ addingState ≠ 0) :
    (m.locateSync env sync addingState).isSome = true := by
  unfold Model.locateSync
  by_cases hc : m.configuredSyncsMap.contains sync.tag = true
  · rw [if_pos hc]
    cases hv : m.configuredSyncsMap.value sync.tag with
    | none => simp [QMap.contains, hv] at hc
    | some old => simp
  · rw [if_neg hc]
    have ha : assert env (some (decide (addingState ≠ 0))) = some () := by
      unfold assert
      rcases h with h | h | h
      · exact absurd h hc
      · simp [h]
      · simp [h]
    rw [ha]
    rfl

theorem applyTransition_some {env : Env} {m m2 : Model} {tag : Int} {cs cs2 : SyncSetting}
    {wasActive wasInactive : Bool} {uuid : QUuid}
    (h : m.applyTransition env tag cs wasActive wasInactive uuid = some (m2, cs2)) :
    cs2 = (if (cs.active && wasInactive) = true ∧ cs.syncID.isEmpty = true then
      cs.setSyncID (QString.toUpper uuid.toString) else cs) ∧
    m2.configuredSyncs = m.configuredSyncs ∧
    m2.unattendedDisabledSyncs = m.unattendedDisabledSyncs ∧
    m2.preferences.syncSettings = m.preferences.syncSettings ∧
    m2.preferences.loadedSyncsMap = m.preferences.loadedSyncsMap ∧
    m2.preferences.logged = m.preferences.logged ∧
    m2.preferences.disabledSyncTags = m.preferences.disabledSyncTags ∧
    m2.configuredSyncsMap = (if (cs.active && wasInactive) = true then
      m.configuredSyncsMap.insert tag cs2 else m.configuredSyncsMap) ∧
    ((cs.active && wasInactive) = true →
      env.ndebug = true ∨ Model.localFolderIsCanonical env cs.localFolder = true) ∧
    ∃ new, m2.events = m.events ++ new ∧
      activations new = (if (cs.active && wasInactive) = true then 1 else 0) ∧
      deactivations new = (if (!cs.active && wasActive) = true then 1 else 0) ∧
      writtenSettings new = [] ∧ stateChangedSignals new = [] := by
  unfold Model.applyTransition at h
  by_cases hact : (cs.active && wasInactive) = true
  · simp only [hact, if_true] at h
    cases ha : m.activateSync env cs uuid with
    | none => simp [ha] at h
    | some r =>
      obtain ⟨ma, csa⟩ := r
      have hsome := activateSync_isSome env m cs uuid
      rw [ha] at hsome
      obtain ⟨hcs, hsame, _, new, hev, hA, hD, hW, hS⟩ := activateSync_some ha
      have hactive : csa.active = cs.active := by
        rw [hcs]; split_ifs <;> rfl
      have hcsa : cs.active = true := by
        cases hx : cs.active <;> simp [hx] at hact ⊢
      have hna : (!csa.active && wasActive) = false := by simp [hactive, hcsa]
      simp only [ha, hna] at h
      simp only [Bool.false_eq_true, if_false, Option.some.injEq, Prod.mk.injEq] at h
      obtain ⟨h1, h2⟩ := h
      subst h1 h2
      refine ⟨?_, hsame.syncs, hsame.disabled, hsame.cache, hsame.loaded, hsame.logged,
        hsame.tags, ?_, ?_, new, hev, ?_, ?_, hW, hS⟩
      · rw [hcs]; by_cases he : cs.syncID.isEmpty = true <;> simp [he, hact]
      · simp [hact, Model.store, hsame.map]
      · intro _
        simpa using hsome.symm
      · simp [hact, hA]
      · simp [hcsa, hD]
  · simp only [hact] at h
    simp only [Bool.false_eq_true, if_false] at h
    by_cases hde : (!cs.active && wasActive) = true
    · simp only [hde, if_true, Option.some.injEq, Prod.mk.injEq] at h
      obtain ⟨h1, h2⟩ := h
      subst h1 h2
      refine ⟨by simp [hact], rfl, rfl, rfl, rfl, rfl, rfl, by simp [hact]; rfl,
        fun hh => absurd hh hact, _, deactivateSync_events m cs, ?_, ?_, ?_, ?_⟩
      · simp [hact, activations]
      · simp [hde, deactivations]
      · simp [writtenSettings]
      · simp [stateChangedSignals]
    · simp only [hde] at h
      simp only [Bool.false_eq_true, if_false, Option.some.injEq, Prod.mk.injEq] at h
      obtain ⟨h1, h2⟩ := h
      subst h1 h2
      refine ⟨by simp [hact], rfl, rfl, rfl, rfl, rfl, rfl, by simp [hact],
        fun hh => absurd hh hact, [], by simp, ?_, ?_, rfl, rfl⟩
      · simp [hact, activations]
      · simp [hde, deactivations]

/-- The record of the sync's tag as it stands at line 208 of
`Model::updateSyncSettings`, after the SDK object has been set on it. -/
def Model.located (m : Model) (sync : MegaSync) : SyncSetting :=
  (m.baseRecord sync).setSync sync

/-- The values of `wasActive` and `wasInactive` at line 219 of
`Model::updateSyncSettings`. -/
def Model.intent (m : Model) (sync : MegaSync) (addingState : Int) : Bool × Bool :=
  transitionIntent addingState (m.located sync)
    (match m.configuredSyncsMap.value sync.tag with | some old => old.active | none => false)
    (match m.configuredSyncsMap.value sync.tag with | some old => !old.active | none => false)

/-- What a completed `updateSyncSettings` call for a non-null sync has done:
`cs` is the returned record and `new` the events of the call. -/
structure Model.Reconciled (env : Env) (m : Model) (sync : MegaSync) (addingState : Int)
    (uuid : QUuid) (m' : Model) (cs : SyncSetting) (new : List Event) : Prop where
  record : cs = (if ((m.located sync).active && (m.intent sync addingState).2) = true
      ∧ (m.located sync).syncID.isEmpty = true
    then (m.located sync).setSyncID (QString.toUpper uuid.toString) else m.located sync)
  events : m'.events = m.events ++ new
  activated : activations new =
    (if ((m.located sync).active && (m.intent sync addingState).2) = true then 1 else 0)
  deactivated : deactivations new =
    (if (!(m.located sync).active && (m.intent sync addingState).1) = true then 1 else 0)
  written : writtenSettings new = [cs]
  signalled : stateChangedSignals new = [cs]
  value : ∀ t, m'.configuredSyncsMap.value t =
    if t = sync.tag then some cs else m.configuredSyncsMap.value t
  syncs : m'.configuredSyncs = (if m.configuredSyncsMap.contains sync.tag then m.configuredSyncs
    else m.configuredSyncs ++ [sync.tag])
  disabled : m'.unattendedDisabledSyncs = m.unattendedDisabledSyncs
  cache : m'.preferences.syncSettings = m.preferences.syncSettings.insert cs.tag cs
  loaded : m'.preferences.loadedSyncsMap = m.preferences.loadedSyncsMap
  logged : m'.preferences.logged = m.preferences.logged
  tags : m'.preferences.disabledSyncTags = m.preferences.disabledSyncTags
  admitted : m.configuredSyncsMap.contains sync.tag = true ∨ env.ndebug = true ∨ addingState ≠ 0
  canonical : ((m.located sync).active && (m.intent sync addingState).2) = true →
    env.ndebug = true ∨ Model.localFolderIsCanonical env sync.localFolder = true

theorem updateSyncSettings_none (env : Env) (m : Model) (addingState : Int) (uuid : QUuid) :
    m.updateSyncSettings env none addingState uuid = some (m, none) := rfl

theorem updateSyncSettings_some {env : Env} {m m' : Model} {sync : MegaSync}
    {addingState : Int} {uuid : QUuid} {r : Option SyncSetting}
    (h : m.updateSyncSettings env (some sync) addingState uuid = some (m', r)) :
    ∃ cs new, r = some cs ∧ m.Reconciled env sync addingState uuid m' cs new := by
  unfold Model.updateSyncSettings at h
  simp only at h
  cases hl : m.locateSync env sync addingState with
  | none => rw [hl] at h; exact absurd h (by simp)
  | some q =>
    obtain ⟨m1, cs1, wa, wi⟩ := q
    rw [hl] at h
    simp only at h
    obtain ⟨hcs1, hev1, hp1, _, hd1, hmap1, hsy1, hwa, hwi, hadm⟩ := locateSync_some hl
    cases ht : m1.applyTransition env sync.tag cs1
        (Model.transitionIntent addingState cs1 wa wi).1
        (Model.transitionIntent addingState cs1 wa wi).2 uuid with
    | none => rw [ht] at h; exact absurd h (by simp)
    | some q2 =>
      obtain ⟨m2, cs2⟩ := q2
      rw [ht] at h
      simp only [Option.some.injEq, Prod.mk.injEq] at h
      obtain ⟨hm', hr⟩ := h
      obtain ⟨hcs2, hsy2, hd2, hc2, hl2, hlg2, htg2, hmap2, hcan, new, hev2, hA, hD, hW, hS⟩ :=
        applyTransition_some ht
      have hloc : cs1 = m.located sync := hcs1
      have hint : Model.transitionIntent addingState cs1 wa wi = m.intent sync addingState := by
        rw [Model.intent, ← hloc, hwa, hwi]
      rw [hint] at hcs2 hmap2 hcan hA hD
      rw [hloc] at hcs2 hmap2 hcan hA hD
      have htag2 : cs2.tag = sync.tag := by
        rw [hcs2]; split_ifs <;> rfl
      subst hm'
      have htail : ∃ tl fin, (if (env.win32 && (env.prevVersion != 0 && decide (env.prevVersion ≤ 3001)
              && !(({ m2 with preferences := m2.preferences.writeSyncSetting cs2 }).emit
                (.writeSyncSetting cs2)).preferences.leftPaneIconsDisabled
              && addingState == SyncAdded.FROM_CACHE && cs2.active)) = true then
            (({ m2 with preferences := m2.preferences.writeSyncSetting cs2 }).emit
                (.writeSyncSetting cs2)).emit
              (.addSyncToLeftPane cs2.localFolder cs2.name cs2.syncID)
          else (({ m2 with preferences := m2.preferences.writeSyncSetting cs2 }).emit
                (.writeSyncSetting cs2))) = fin ∧ fin.events = m2.events ++ tl ∧
          fin.configuredSyncsMap = m2.configuredSyncsMap ∧
          fin.configuredSyncs = m2.configuredSyncs ∧
          fin.unattendedDisabledSyncs = m2.unattendedDisabledSyncs ∧
          fin.preferences = m2.preferences.writeSyncSetting cs2 ∧
          activations tl = 0 ∧ deactivations tl = 0 ∧
          writtenSettings tl = [cs2] ∧ stateChangedSignals tl = [] := by
        split_ifs
        · exact ⟨[.writeSyncSetting cs2, .addSyncToLeftPane cs2.localFolder cs2.name cs2.syncID],
            _, rfl, by simp [Model.emit], rfl, rfl, rfl, rfl,
            by simp [activations], by simp [deactivations],
            by simp [writtenSettings], by simp [stateChangedSignals]⟩
        · exact ⟨[.writeSyncSetting cs2], _, rfl,
            by simp [Model.emit], rfl, rfl, rfl, rfl,
            by simp [activations], by simp [deactivations],
            by simp [writtenSettings], by simp [stateChangedSignals]⟩
      obtain ⟨tl, fin, hfin, htl, hfmap, hfsy, hfd, hfp, htA, htD, htW, htS⟩ := htail
      rw [hfin]
      refine ⟨cs2, new ++ tl ++ [.syncStateChanged cs2], hr.symm, ?_⟩
      constructor
      · exact hcs2
      · show fin.events ++ [Event.syncStateChanged cs2] = _
        simp [htl, hev2, hev1, List.append_assoc]
      · have : activations (new ++ tl ++ [.syncStateChanged cs2]) =
            activations new + activations tl := by
          simp [activations, List.countP_append]
        rw [this, htA, hA]; rfl
      · have : deactivations (new ++ tl ++ [.syncStateChanged cs2]) =
            deactivations new + deactivations tl := by
          simp [deactivations, List.countP_append]
        rw [this, htD, hD]; rfl
      · have : writtenSettings (new ++ tl ++ [.syncStateChanged cs2]) =
            writtenSettings new ++ writtenSettings tl := by
          simp [writtenSettings, List.filterMap_append]
        rw [this, htW, hW]; rfl
      · have : stateChangedSignals (new ++ tl ++ [.syncStateChanged cs2]) =
            stateChangedSignals new ++ stateChangedSignals tl ++ [cs2] := by
          simp [stateChangedSignals, List.filterMap_append]
        rw [this, htS, hS]; rfl
      · intro t
        show fin.configuredSyncsMap.value t = _
        rw [hfmap, hmap2]
        split_ifs with h1 h2 h2
        · simp [QMap.value_insert, h2]
        · simp [QMap.value_insert, h2, hmap1]
        · have : cs2 = cs1 := by rw [hcs2, hloc]; simp [h1]
          simp [hmap1, QMap.value_insert, h2, this]
        · simp [hmap1, QMap.value_insert, h2]
      · show fin.configuredSyncs = _
        rw [hfsy, hsy2, hsy1]
      · show fin.unattendedDisabledSyncs = _
        rw [hfd, hd2, hd1]
      · show fin.preferences.syncSettings = _
        rw [hfp]; simp [Preferences.writeSyncSetting, hc2, hp1]
      · show fin.preferences.loadedSyncsMap = _
        rw [hfp]; simp [Preferences.writeSyncSetting, hl2, hp1]
      · show fin.preferences.logged = _
        rw [hfp]; simp [Preferences.writeSyncSetting, hlg2, hp1]
      · show fin.preferences.disabledSyncTags = _
        rw [hfp]; simp [Preferences.writeSyncSetting, htg2, hp1]
      · exact hadm
      · intro hh
        have := hcan hh
        simpa [Model.located, SyncSetting.setSync] using this

theorem updateSyncSettings_isSome (env : Env) (m : Model) (sync : MegaSync)
    (addingState : Int) (uuid : QUuid)
    (hadm : m.configuredSyncsMap.contains sync.tag = true ∨ env.ndebug = true ∨ addingState ≠ 0)
    (hcan : ((m.located sync).active && (m.intent sync addingState).2) = true →
      env.ndebug = true ∨ Model.localFolderIsCanonical env sync.localFolder = true) :
    (m.updateSyncSettings env (some sync) addingState uuid).isSome = true := by
  unfold Model.updateSyncSettings
  simp only
  have hl := locateSync_isSome env m sync addingState hadm
  cases hq : m.locateSync env sync addingState with
  | none => rw [hq] at hl; exact absurd hl (by simp)
  | some q =>
    obtain ⟨m1, cs1, wa, wi⟩ := q
    simp only
    obtain ⟨hcs1, _, _, _, _, _, _, hwa, hwi, _⟩ := locateSync_some hq
    have hloc : cs1 = m.located sync := hcs1
    have hint : Model.transitionIntent addingState cs1 wa wi = m.intent sync addingState := by
      rw [Model.intent, ← hloc, hwa, hwi]
    rw [hint]
    have happ : (m1.applyTransition env sync.tag cs1 (m.intent sync addingState).1
        (m.intent sync addingState).2 uuid).isSome = true := by
      unfold Model.applyTransition
      by_cases hact : (cs1.active && (m.intent sync addingState).2) = true
      · have hs := activateSync_isSome env m1 cs1 uuid
        have hc := hcan (by rw [← hloc]; exact hact)
        have hlf : cs1.localFolder = sync.localFolder := by rw [hcs1]; rfl
        rw [hlf] at hs
        have hs' : (m1.activateSync env cs1 uuid).isSome = true := by
          rw [hs]; rcases hc with hc | hc <;> simp [hc]
        cases ha : m1.activateSync env cs1 uuid with
        | none => rw [ha] at hs'; exact absurd hs' (by simp)
        | some r =>
          obtain ⟨ma, csa⟩ := r
          simp only [hact, if_true]
          split_ifs <;> rfl
      · simp only [hact]
        simp only [Bool.false_eq_true, if_false]
        split_ifs <;> rfl
    cases ht : m1.applyTransition env sync.tag cs1 (m.intent sync addingState).1
        (m.intent sync addingState).2 uuid with
    | none => rw [ht] at happ; exact absurd happ (by simp)
    | some q2 => rfl

/-! ## Lemmas on the disabled set and on removal -/

theorem saveUnattendedDisabledSyncs_same (m : Model) :
    (m.saveUnattendedDisabledSyncs).configuredSyncs = m.configuredSyncs ∧
    (m.saveUnattendedDisabledSyncs).configuredSyncsMap = m.configuredSyncsMap ∧
    (m.saveUnattendedDisabledSyncs).unattendedDisabledSyncs = m.unattendedDisabledSyncs ∧
    (m.saveUnattendedDisabledSyncs).isFirstSyncDone = m.isFirstSyncDone ∧
    (m.saveUnattendedDisabledSyncs).preferences.syncSettings = m.preferences.syncSettings := by
  unfold Model.saveUnattendedDisabledSyncs
  split_ifs <;> exact ⟨rfl, rfl, rfl, rfl, rfl⟩

theorem removeUnattendedDisabledSync_same (m : Model) (tag : Int) :
    (m.removeUnattendedDisabledSync tag).configuredSyncs = m.configuredSyncs ∧
    (m.removeUnattendedDisabledSync tag).configuredSyncsMap = m.configuredSyncsMap ∧
    (m.removeUnattendedDisabledSync tag).unattendedDisabledSyncs =
      m.unattendedDisabledSyncs.erase tag ∧
    (m.removeUnattendedDisabledSync tag).isFirstSyncDone = m.isFirstSyncDone ∧
    (m.removeUnattendedDisabledSync tag).preferences.syncSettings =
      m.preferences.syncSettings := by
  unfold Model.removeUnattendedDisabledSync
  simp only [Model.emit]
  obtain ⟨h1, h2, h3, h4, h5⟩ := saveUnattendedDisabledSyncs_same
    { m with unattendedDisabledSyncs := m.unattendedDisabledSyncs.erase tag }
  exact ⟨h1, h2, h3, h4, h5⟩

theorem eraseIdx_eq_filter (l : List Int) (i : Nat) (key : Int) (hn : l.Nodup)
    (hk : l.get? i = some key) :
    l.eraseIdx i = l.filter (fun t => decide (t ≠ key)) := by
  induction l generalizing i with
  | nil => simp at hk
  | cons a rest ih =>
    have hna : a ∉ rest := (List.nodup_cons.mp hn).1
    have hnr : rest.Nodup := (List.nodup_cons.mp hn).2
    cases i with
    | zero =>
      simp only [List.get?_cons_zero, Option.some.injEq] at hk
      subst hk
      simp only [List.eraseIdx_cons_zero, ne_eq, decide_not, List.filter_cons_of_neg,
        decide_True, Bool.not_true, Bool.false_eq_true, not_false_eq_true]
      symm
      rw [List.filter_eq_self]
      intro t ht
      have : t ≠ a := fun h => hna (h ▸ ht)
      simpa using this
    | succ j =>
      simp only [List.get?_cons_succ] at hk
      have hmem : key ∈ rest := List.get?_mem hk
      have hak : a ≠ key := fun h => hna (h ▸ hmem)
      simp only [List.eraseIdx_cons_succ, ih j hnr hk]
      simp [hak]

theorem removeSyncedFolderByTag_absent {env : Env} {m : Model} {tag : Int}
    (h : m.configuredSyncsMap.contains tag = false) :
    m.removeSyncedFolderByTag env tag = some m := by
  unfold Model.removeSyncedFolderByTag
  simp [h]

theorem removeSyncedFolderByTag_some {env : Env} {m m' : Model} {tag : Int}
    (hc : m.configuredSyncsMap.contains tag = true)
    (h : m.removeSyncedFolderByTag env tag = some m') :
    m'.configuredSyncsMap = m.configuredSyncsMap.remove tag ∧
    m'.configuredSyncs = m.configuredSyncs.filter (fun t => decide (t ≠ tag)) ∧
    m'.unattendedDisabledSyncs = m.unattendedDisabledSyncs.erase tag := by
  unfold Model.removeSyncedFolderByTag at h
  simp only [hc, Bool.not_true, Bool.false_eq_true, if_false] at h
  cases hv : m.configuredSyncsMap.value tag with
  | none => rw [hv] at h; exact absurd h (by simp)
  | some cs =>
    rw [hv] at h
    simp only at h
    split at h
    · exact absurd h (by simp)
    · simp only [Option.some.injEq] at h
      subst h
      simp only [Model.emit]
      obtain ⟨h1, h2, h3, _, _⟩ := removeUnattendedDisabledSync_same
        ({ preferences := (if cs.active = true then m.deactivateSync cs
              else m).preferences.removeSyncSetting cs,
           isFirstSyncDone := (if cs.active = true then m.deactivateSync cs
              else m).isFirstSyncDone,
           configuredSyncs := List.filter (fun t => decide (t ≠ tag))
              (if cs.active = true then m.deactivateSync cs else m).configuredSyncs,
           configuredSyncsMap := (if cs.active = true then m.deactivateSync cs
              else m).configuredSyncsMap.remove tag,
           unattendedDisabledSyncs := (if cs.active = true then m.deactivateSync cs
              else m).unattendedDisabledSyncs,
           events := (if cs.active = true then m.deactivateSync cs else m).events ++
              [Event.removeSyncSetting cs] } : Model) tag
      refine ⟨?_, ?_, ?_⟩
      · refine Eq.trans h2 ?_
        show (if cs.active = true then m.deactivateSync cs else m).configuredSyncsMap.remove tag = _
        split_ifs <;> rfl
      · refine Eq.trans h1 ?_
        show List.filter _ (if cs.active = true then m.deactivateSync cs
          else m).configuredSyncs = _
        split_ifs <;> rfl
      · refine Eq.trans h3 ?_
        show (if cs.active = true then m.deactivateSync cs
          else m).unattendedDisabledSyncs.erase tag = _
        split_ifs <;> rfl

theorem removeSyncedFolder_some {env : Env} {m m' : Model} {num : Int}
    (h : m.removeSyncedFolder env num = some m') :
    ∃ key cs, QList.at m.configuredSyncs num = some key ∧
      m.configuredSyncsMap.value key = some cs ∧
      m'.configuredSyncsMap = m.configuredSyncsMap.remove key ∧
      m'.configuredSyncs = QList.removeAt m.configuredSyncs num ∧
      m'.unattendedDisabledSyncs = m.unattendedDisabledSyncs.erase cs.tag := by
  unfold Model.removeSyncedFolder at h
  simp only at h
  split at h
  · exact absurd h (by simp)
  · cases hk : QList.at m.configuredSyncs num with
    | none => rw [hk] at h; exact absurd h (by simp)
    | some key =>
      rw [hk] at h
      simp only at h
      cases hv : m.configuredSyncsMap.value key with
      | none => rw [hv] at h; exact absurd h (by simp)
      | some cs =>
        rw [hv] at h
        simp only at h
        split at h
        · exact absurd h (by simp)
        · simp only [Option.some.injEq] at h
          subst h
          refine ⟨key, cs, rfl, hv, ?_⟩
          simp only [Model.emit]
          obtain ⟨h1, h2, h3, _, _⟩ := removeUnattendedDisabledSync_same
            ({ preferences := (if cs.active = true then m.deactivateSync cs
                  else m).preferences.removeSyncSetting cs,
               isFirstSyncDone := (if cs.active = true then m.deactivateSync cs
                  else m).isFirstSyncDone,
               configuredSyncs := QList.removeAt
                  (if cs.active = true then m.deactivateSync cs else m).configuredSyncs num,
               configuredSyncsMap := (if cs.active = true then m.deactivateSync cs
                  else m).configuredSyncsMap.remove key,
               unattendedDisabledSyncs := (if cs.active = true then m.deactivateSync cs
                  else m).unattendedDisabledSyncs,
               events := (if cs.active = true then m.deactivateSync cs else m).events ++
                  [Event.removeSyncSetting cs] } : Model) cs.tag
          refine ⟨?_, ?_, ?_⟩
          · refine Eq.trans h2 ?_
            show (if cs.active = true then m.deactivateSync cs
              else m).configuredSyncsMap.remove key = _
            split_ifs <;> rfl
          · refine Eq.trans h1 ?_
            show QList.removeAt (if cs.active = true then m.deactivateSync cs
              else m).configuredSyncs num = _
            split_ifs <;> rfl
          · refine Eq.trans h3 ?_
            show (if cs.active = true then m.deactivateSync cs
              else m).unattendedDisabledSyncs.erase cs.tag = _
            split_ifs <;> rfl

theorem deactivateAll_preferences (l : List SyncSetting) (m : Model) :
    (l.foldl (fun m cs => if cs.active then m.deactivateSync cs else m) m).preferences =
      m.preferences := by
  induction l generalizing m with
  | nil => rfl
  | cons cs rest ih =>
    simp only [List.foldl_cons]
    rw [ih]
    split_ifs <;> rfl

theorem removeAllFolders_some {env : Env} {m m' : Model}
    (h : m.removeAllFolders env = some m') :
    m'.configuredSyncs = [] ∧ m'.configuredSyncsMap = QMap.empty ∧
    m'.unattendedDisabledSyncs = ∅ ∧ m'.preferences.syncSettings = QMap.empty := by
  unfold Model.removeAllFolders at h
  split at h
  · exact absurd h (by simp)
  · simp only [Option.some.injEq] at h
    subst h
    refine ⟨rfl, rfl, rfl, ?_⟩
    simp only [deactivateAll_preferences]
    rfl

theorem removeAllFolders_isSome (env : Env) (m : Model)
    (h : env.ndebug = true ∨ m.preferences.logged = true) :
    (m.removeAllFolders env).isSome = true := by
  unfold Model.removeAllFolders assert
  rcases h with h | h
  · simp [h]
  · by_cases hn : env.ndebug = true
    · simp [hn]
    · simp [hn, h]

theorem pickInfoFromOldSync_some {env : Env} {m m' : Model} {osd : SyncData} {tag : Int}
    {loaded : Bool} (h : m.pickInfoFromOldSync env osd tag loaded = some m') :
    (∀ t, m'.configuredSyncsMap.value t =
      if t = tag then some ((SyncSetting.ofSyncData osd loaded).setTag tag)
      else m.configuredSyncsMap.value t) ∧
    m'.configuredSyncs = m.configuredSyncs ++ [tag] ∧
    m'.unattendedDisabledSyncs = m.unattendedDisabledSyncs := by
  unfold Model.pickInfoFromOldSync at h
  split at h
  · exact absurd h (by simp)
  · split at h
    · exact absurd h (by simp)
    · simp only at h
      split at h
      · exact absurd h (by simp)
      · simp only [Option.some.injEq] at h
        subst h
        refine ⟨?_, rfl, rfl⟩
        intro t
        simp only [Model.emit, Model.store, QMap.value_insert]
        by_cases ht : t = tag <;> simp [ht]

theorem rewriteFold_none (l : List Int) :
    l.foldl (fun (acc : Option Model) tag =>
      match acc with
      | none => none
      | some m =>
        match m.configuredSyncsMap.value tag with
        | none => none
        | some cs =>
          some (({ m with preferences := m.preferences.writeSyncSetting cs }).emit
            (.writeSyncSetting cs))) none = none := by
  induction l with
  | nil => rfl
  | cons a rest ih => simpa using ih

theorem rewriteFold_some (l : List Int) (m0 m' : Model)
    (h : l.foldl (fun (acc : Option Model) tag =>
      match acc with
      | none => none
      | some m =>
        match m.configuredSyncsMap.value tag with
        | none => none
        | some cs =>
          some (({ m with preferences := m.preferences.writeSyncSetting cs }).emit
            (.writeSyncSetting cs))) (some m0) = some m') :
    m'.configuredSyncs = m0.configuredSyncs ∧ m'.configuredSyncsMap = m0.configuredSyncsMap ∧
    m'.unattendedDisabledSyncs = m0.unattendedDisabledSyncs := by
  induction l generalizing m0 with
  | nil =>
    simp only [List.foldl_nil, Option.some.injEq] at h
    subst h
    exact ⟨rfl, rfl, rfl⟩
  | cons a rest ih =>
    simp only [List.foldl_cons] at h
    cases hv : m0.configuredSyncsMap.value a with
    | none =>
      rw [hv] at h
      simp only at h
      rw [rewriteFold_none] at h
      exact absurd h (by simp)
    | some cs =>
      rw [hv] at h
      simp only at h
      obtain ⟨h1, h2, h3⟩ := ih _ h
      exact ⟨h1, h2, h3⟩

theorem rewriteSyncSettings_some {m m' : Model} (h : m.rewriteSyncSettings = some m') :
    m'.configuredSyncs = m.configuredSyncs ∧ m'.configuredSyncsMap = m.configuredSyncsMap ∧
    m'.unattendedDisabledSyncs = m.unattendedDisabledSyncs := by
  unfold Model.rewriteSyncSettings at h
  exact rewriteFold_some _
    (({ m with preferences := m.preferences.removeAllSyncSettings }).emit
      .removeAllSyncSettings) m' h

/-! ## The registry invariant along a run -/

theorem Model.Consistent.of_eq {m m' : Model} (hm : m.Consistent)
    (h1 : m'.configuredSyncs = m.configuredSyncs)
    (h2 : m'.configuredSyncsMap = m.configuredSyncsMap) : m'.Consistent := by
  constructor
  · intro t; rw [h1, h2]; exact hm.sameTags t
  · rw [h1]; exact hm.nodup
  · intro t cs; rw [h2]; exact hm.keyed t cs

theorem Model.Consistent.of_empty {m : Model} (h1 : m.configuredSyncs = [])
    (h2 : m.configuredSyncsMap = QMap.empty) : m.Consistent := by
  constructor
  · intro t; rw [h1, h2]; simp [QMap.contains_empty]
  · rw [h1]; exact List.nodup_nil
  · intro t cs; rw [h2, QMap.value_empty]; intro h; exact absurd h (by simp)

theorem Model.Consistent.insert {m m' : Model} (hm : m.Consistent) (tag : Int)
    (cs : SyncSetting) (htag : cs.tag = tag)
    (hv : ∀ t, m'.configuredSyncsMap.value t =
      if t = tag then some cs else m.configuredSyncsMap.value t)
    (hs : m'.configuredSyncs = (if m.configuredSyncsMap.contains tag then m.configuredSyncs
      else m.configuredSyncs ++ [tag])) : m'.Consistent := by
  have hcont : ∀ t, m'.configuredSyncsMap.contains t =
      (decide (t = tag) || m.configuredSyncsMap.contains t) := by
    intro t
    simp only [QMap.contains, hv]
    by_cases ht : t = tag <;> simp [ht]
  by_cases hc : m.configuredSyncsMap.contains tag = true
  · rw [if_pos hc] at hs
    constructor
    · intro t
      rw [hs, hcont, hm.sameTags]
      by_cases ht : t = tag
      · subst ht; simp [hc]
      · simp [ht]
    · rw [hs]; exact hm.nodup
    · intro t r hr
      rw [hv] at hr
      by_cases ht : t = tag
      · simp only [ht, if_true, Option.some.injEq] at hr
        rw [← hr, ht]; exact htag
      · simp only [ht, if_false] at hr
        exact hm.keyed t r hr
  · rw [if_neg hc] at hs
    have hnot : tag ∉ m.configuredSyncs := fun h => hc ((hm.sameTags tag).mp h)
    constructor
    · intro t
      rw [hs, hcont, List.mem_append, hm.sameTags]
      by_cases ht : t = tag <;> simp [ht]
    · rw [hs]
      exact List.Nodup.append hm.nodup (List.nodup_singleton tag)
        (by simpa using hnot)
    · intro t r hr
      rw [hv] at hr
      by_cases ht : t = tag
      · simp only [ht, if_true, Option.some.injEq] at hr
        rw [← hr, ht]; exact htag
      · simp only [ht, if_false] at hr
        exact hm.keyed t r hr

theorem Model.Consistent.remove {m m' : Model} (hm : m.Consistent) (tag : Int)
    (h2 : m'.configuredSyncsMap = m.configuredSyncsMap.remove tag)
    (h1 : m'.configuredSyncs = m.configuredSyncs.filter (fun t => decide (t ≠ tag))) :
    m'.Consistent := by
  constructor
  · intro t
    rw [h1, h2, QMap.contains_remove, List.mem_filter, hm.sameTags]
    by_cases ht : t = tag <;> simp [ht]
  · rw [h1]; exact hm.nodup.filter _
  · intro t r hr
    rw [h2, QMap.value_remove] at hr
    by_cases ht : t = tag
    · simp [ht] at hr
    · simp only [ht, if_false] at hr
      exact hm.keyed t r hr

theorem Reconciled.tag {env : Env} {m m' : Model} {sync : MegaSync} {addingState : Int}
    {uuid : QUuid} {cs : SyncSetting} {new : List Event}
    (h : m.Reconciled env sync addingState uuid m' cs new) : cs.tag = sync.tag := by
  rw [h.record]; split_ifs <;> rfl

theorem Reconciled.active {env : Env} {m m' : Model} {sync : MegaSync} {addingState : Int}
    {uuid : QUuid} {cs : SyncSetting} {new : List Event}
    (h : m.Reconciled env sync addingState uuid m' cs new) : cs.active = sync.active := by
  rw [h.record]; split_ifs <;> rfl

theorem QList.at_eq_some {l : List Int} {i : Int} {key : Int} (h : QList.at l i = some key) :
    0 ≤ i ∧ l.get? i.toNat = some key := by
  unfold QList.at at h
  split_ifs at h with h0
  exact ⟨h0, h⟩

theorem Op.run_consistent {env : Env} {m m' : Model} (op : Op) (hm : m.Consistent)
    (hpre : op.pre m) (h : op.run env m = some m') : m'.Consistent := by
  cases op with
  | updateSyncSettings sync addingState uuid =>
    simp only [Op.run, Option.map_eq_some'] at h
    obtain ⟨⟨m1, r⟩, hr, rfl⟩ := h
    cases sync with
    | none =>
      rw [updateSyncSettings_none] at hr
      simp only [Option.some.injEq, Prod.mk.injEq] at hr
      rw [← hr.1]; exact hm
    | some s =>
      obtain ⟨cs, new, _, hrec⟩ := updateSyncSettings_some hr
      exact hm.insert s.tag cs (Reconciled.tag hrec) hrec.value hrec.syncs
  | removeSyncedFolder num =>
    simp only [Op.run] at h
    obtain ⟨key, cs, hk, hv, h2, h1, _⟩ := removeSyncedFolder_some h
    obtain ⟨_, hget⟩ := QList.at_eq_some hk
    refine hm.remove key h2 ?_
    rw [h1, QList.removeAt]
    exact eraseIdx_eq_filter _ _ _ hm.nodup hget
  | removeSyncedFolderByTag tag =>
    simp only [Op.run] at h
    by_cases hc : m.configuredSyncsMap.contains tag = true
    · obtain ⟨h2, h1, _⟩ := removeSyncedFolderByTag_some hc h
      exact hm.remove tag h2 h1
    · have hc' : m.configuredSyncsMap.contains tag = false := by simpa using hc
      rw [removeSyncedFolderByTag_absent hc'] at h
      simp only [Option.some.injEq] at h
      rw [← h]; exact hm
  | removeAllFolders =>
    simp only [Op.run] at h
    obtain ⟨h1, h2, _, _⟩ := removeAllFolders_some h
    exact Model.Consistent.of_empty h1 h2
  | rewriteSyncSettings =>
    simp only [Op.run] at h
    obtain ⟨h1, h2, _⟩ := rewriteSyncSettings_some h
    exact hm.of_eq h1 h2
  | pickInfoFromOldSync osd tag loaded =>
    simp only [Op.run] at h
    obtain ⟨hv, hs, _⟩ := pickInfoFromOldSync_some h
    have hc : m.configuredSyncsMap.contains tag = false := hpre
    exact hm.insert tag _ rfl hv (by rw [hs]; simp [hc])
  | reset =>
    simp only [Op.run, Option.some.injEq] at h
    subst h
    exact Model.Consistent.of_empty rfl rfl
  | addUnattendedDisabledSync tag =>
    simp only [Op.run, Option.some.injEq] at h
    subst h
    obtain ⟨h1, h2, _⟩ := saveUnattendedDisabledSyncs_same
      { m with unattendedDisabledSyncs := insert tag m.unattendedDisabledSyncs }
    exact hm.of_eq h1 h2
  | removeUnattendedDisabledSync tag =>
    simp only [Op.run, Option.some.injEq] at h
    subst h
    obtain ⟨h1, h2, _⟩ := removeUnattendedDisabledSync_same m tag
    exact hm.of_eq h1 h2
  | setUnattendedDisabledSyncs tags =>
    simp only [Op.run, Option.some.injEq] at h
    subst h
    obtain ⟨h1, h2, _⟩ := saveUnattendedDisabledSyncs_same
      { m with unattendedDisabledSyncs := tags }
    exact hm.of_eq h1 h2
  | dismissUnattendedDisabledSyncs =>
    simp only [Op.run, Option.some.injEq] at h
    subst h
    obtain ⟨h1, h2, _⟩ := saveUnattendedDisabledSyncs_same
      { m with unattendedDisabledSyncs := ∅ }
    exact hm.of_eq h1 h2
  | preferencesChanged p =>
    simp only [Op.run, Option.some.injEq] at h
    subst h
    exact hm.of_eq rfl rfl

theorem Reachable.consistent {env : Env} {m : Model} (h : Reachable env m) : m.Consistent := by
  induction h with
  | init p b => exact Model.Consistent.of_empty rfl rfl
  | step op _ hpre hrun ih => exact Op.run_consistent op ih hpre hrun

/-! ## Sample data -/

/-- A build without `NDEBUG`, not on Windows, on a filesystem where every path
is already canonical. -/
def sampleEnv : Env := ⟨false, false, fun p => p, 0⟩

/-- A logged-in session with an empty cache. -/
def samplePreferences : Preferences :=
  ⟨true, QMap.empty, QMap.empty, ∅, false, false, false, false⟩

/-- An active SDK sync with tag 42. -/
def sampleSync : MegaSync := ⟨42, "/home/user/docs", 7, true, true, 0⟩

/-- The same SDK sync, reported inactive. -/
def sampleSyncStopped : MegaSync := ⟨42, "/home/user/docs", 7, true, false, 0⟩

/-- The UUID drawn in the samples. -/
def sampleUuid : QUuid := ⟨5⟩

/-- The record of tag 42 once activated. -/
def sampleRecord : SyncSetting :=
  ⟨42, "\x7b00000000-0000-0000-0000-000000000005\x7d", "", "/home/user/docs", 7, true, true, 0⟩

/-- The registry after `updateSyncSettings(sampleSync, NEW)` on the empty one. -/
def sampleTracked : Model :=
  { preferences := { samplePreferences with syncSettings := ⟨[(42, sampleRecord)]⟩ }
    isFirstSyncDone := true
    configuredSyncs := [42]
    configuredSyncsMap := ⟨[(42, sampleRecord)]⟩
    unattendedDisabledSyncs := ∅
    events := [.sendEvent 99501 "MEGAsync first sync",
      .syncFolderAdded "/home/user/docs" "" "\x7b00000000-0000-0000-0000-000000000005\x7d",
      .writeSyncSetting sampleRecord, .syncStateChanged sampleRecord] }

theorem sampleTracked_run :
    (Model.init samplePreferences false).updateSyncSettings sampleEnv (some sampleSync)
      SyncAdded.NEW sampleUuid = some (sampleTracked, some sampleRecord) := by
  decide

theorem sampleTracked_reachable : Reachable sampleEnv sampleTracked :=
  Reachable.step (.updateSyncSettings (some sampleSync) SyncAdded.NEW sampleUuid)
    (Reachable.init samplePreferences false) trivial
    (by simp only [Op.run, sampleTracked_run]; rfl)

/-! ## C1: the registry invariant -/

/-- C1. In every state reachable from the state after the constructor by the
operations of `Model` (`updateSyncSettings`, `removeSyncedFolder` at a valid
position, `removeSyncedFolderByTag`, `removeAllFolders`, `pickInfoFromOldSync`
for an untracked tag, `reset`, and also `rewriteSyncSettings`, the
unattended-disabled operations and changes of the preferences), a tag is in
`configuredSyncs` exactly when it is a key of `configuredSyncsMap`, and no tag
occurs twice in `configuredSyncs`. -/
theorem registry_invariant (env : Env) (m : Model) (h : Reachable env m) :
    (∀ t, t ∈ m.configuredSyncs ↔ t ∈ m.configuredSyncsMap.keys) ∧
    m.configuredSyncs.Nodup := by
  have hc := Reachable.consistent h
  refine ⟨fun t => ?_, hc.nodup⟩
  rw [QMap.mem_keys_iff]
  exact hc.sameTags t

theorem registry_invariant_witness :
    Reachable sampleEnv sampleTracked ∧
    (∀ t, t ∈ sampleTracked.configuredSyncs ↔ t ∈ sampleTracked.configuredSyncsMap.keys) ∧
    sampleTracked.configuredSyncs.Nodup :=
  ⟨sampleTracked_reachable, registry_invariant sampleEnv sampleTracked sampleTracked_reachable⟩

/-! ## C2: activation and deactivation edges -/

/-- The predicate `wasActive` as the claim words it: for a plain update the
active flag of the record before the call (no record, no flag); otherwise
`FROM_CACHE` with an active record after the update, or
`FROM_CACHE_FAILED_TO_RESUME`. -/
def claimedWasActive (before : Option SyncSetting) (addingState : Int) (after : SyncSetting) :
    Bool :=
  if addingState = 0 then
    match before with
    | some r => r.active
    | none => false
  else (decide (addingState = SyncAdded.FROM_CACHE) && after.active)
    || decide (addingState = SyncAdded.FROM_CACHE_FAILED_TO_RESUME)

/-- The predicate `wasInactive` as the claim words it: for a plain update the
negation of the active flag of the record before the call (no record, no
flag); otherwise `FROM_CACHE` with an inactive record after the update, `NEW`,
`FROM_CACHE_REENABLED` or `REENABLED_FAILED`. -/
def claimedWasInactive (before : Option SyncSetting) (addingState : Int) (after : SyncSetting) :
    Bool :=
  if addingState = 0 then
    match before with
    | some r => !r.active
    | none => false
  else (decide (addingState = SyncAdded.FROM_CACHE) && !after.active)
    || decide (addingState = SyncAdded.NEW)
    || decide (addingState = SyncAdded.FROM_CACHE_REENABLED)
    || decide (addingState = SyncAdded.REENABLED_FAILED)

theorem intent_eq_claimed {env : Env} {m m' : Model} {sync : MegaSync} {addingState : Int}
    {uuid : QUuid} {cs : SyncSetting} {new : List Event}
    (h : m.Reconciled env sync addingState uuid m' cs new) :
    (m.located sync).active = cs.active ∧
    (m.intent sync addingState).1 =
      claimedWasActive (m.configuredSyncsMap.value sync.tag) addingState cs ∧
    (m.intent sync addingState).2 =
      claimedWasInactive (m.configuredSyncsMap.value sync.tag) addingState cs := by
  have hact : (m.located sync).active = cs.active := by
    rw [Reconciled.active h]; rfl
  refine ⟨hact, ?_, ?_⟩
  · unfold Model.intent Model.transitionIntent claimedWasActive
    rw [hact]
    by_cases h0 : addingState = 0
    · simp [h0]
    · simp only [h0, ne_eq, not_false_eq_true, if_true, if_false]
      rfl
  · unfold Model.intent Model.transitionIntent claimedWasInactive
    rw [hact]
    by_cases h0 : addingState = 0
    · simp [h0]
    · simp only [h0, ne_eq, not_false_eq_true, if_true, if_false]
      rfl

/-- C2. For every `updateSyncSettings` call with a non-null SDK sync that runs
to its end, with `cs` the returned record and `new` the events of the call:
activation handling ran once if `wasInactive` (as the claim words it) holds and
`cs` is active, and not at all otherwise; deactivation handling ran once if
`wasActive` holds and `cs` is not active, and not at all otherwise; and the two
did not both run. -/
theorem activation_iff_edge (env : Env) (m m' : Model) (sync : MegaSync) (addingState : Int)
    (uuid : QUuid) (r : Option SyncSetting)
    (h : m.updateSyncSettings env (some sync) addingState uuid = some (m', r)) :
    ∃ cs new, r = some cs ∧ m'.events = m.events ++ new ∧
      activations new = (if claimedWasInactive (m.configuredSyncsMap.value sync.tag)
        addingState cs = true ∧ cs.active = true then 1 else 0) ∧
      deactivations new = (if claimedWasActive (m.configuredSyncsMap.value sync.tag)
        addingState cs = true ∧ cs.active = false then 1 else 0) ∧
      ¬ (activations new ≥ 1 ∧ deactivations new ≥ 1) := by
  obtain ⟨cs, new, hr, hrec⟩ := updateSyncSettings_some h
  obtain ⟨hact, hwa, hwi⟩ := intent_eq_claimed hrec
  have hA := hrec.activated
  have hD := hrec.deactivated
  rw [hact, hwi] at hA
  rw [hact, hwa] at hD
  refine ⟨cs, new, hr, hrec.events, ?_, ?_, ?_⟩
  · rw [hA]
    cases cs.active <;>
      cases claimedWasInactive (m.configuredSyncsMap.value sync.tag) addingState cs <;> simp
  · rw [hD]
    cases cs.active <;>
      cases claimedWasActive (m.configuredSyncsMap.value sync.tag) addingState cs <;> simp
  · rw [hA, hD]
    cases cs.active <;> simp

theorem activation_iff_edge_witness :
    ∃ cs new, some sampleRecord = some cs ∧
      sampleTracked.events = (Model.init samplePreferences false).events ++ new ∧
      activations new = (if claimedWasInactive
        ((Model.init samplePreferences false).configuredSyncsMap.value sampleSync.tag)
        SyncAdded.NEW cs = true ∧ cs.active = true then 1 else 0) ∧
      deactivations new = (if claimedWasActive
        ((Model.init samplePreferences false).configuredSyncsMap.value sampleSync.tag)
        SyncAdded.NEW cs = true ∧ cs.active = false then 1 else 0) ∧
      ¬ (activations new ≥ 1 ∧ deactivations new ≥ 1) :=
  activation_iff_edge sampleEnv (Model.init samplePreferences false) sampleTracked sampleSync
    SyncAdded.NEW sampleUuid (some sampleRecord) sampleTracked_run

/-! ## C3: the sync identifier is kept -/

/-- C3. If the record tracked under a tag has a non-empty sync identifier, an
`updateSyncSettings` call for that tag that runs to its end, whatever its
`addingState` and whether it activates, deactivates or neither, returns and
leaves under the tag a record with the same sync identifier. -/
theorem syncID_kept (env : Env) (m m' : Model) (sync : MegaSync) (addingState : Int)
    (uuid : QUuid) (r : Option SyncSetting) (old : SyncSetting)
    (hold : m.configuredSyncsMap.value sync.tag = some old)
    (hid : old.syncID ≠ "")
    (h : m.updateSyncSettings env (some sync) addingState uuid = some (m', r)) :
    ∃ cs, r = some cs ∧ m'.configuredSyncsMap.value sync.tag = some cs ∧
      cs.syncID = old.syncID := by
  obtain ⟨cs, new, hr, hrec⟩ := updateSyncSettings_some h
  refine ⟨cs, hr, by simpa using hrec.value sync.tag, ?_⟩
  have hloc : (m.located sync).syncID = old.syncID := by
    simp [Model.located, Model.baseRecord, hold, SyncSetting.setSync]
  have hne : ¬ (m.located sync).syncID.isEmpty = true := by
    rw [String.isEmpty_iff, hloc]; exact hid
  rw [hrec.record, if_neg (fun hh => hne hh.2)]
  exact hloc

/-- The record of tag 42 after the SDK reports the sync inactive. -/
def sampleRecordStopped : SyncSetting := { sampleRecord with active := false }

/-- The registry after `updateSyncSettings(sampleSyncStopped, 0)` on
`sampleTracked`. -/
def sampleStopped : Model :=
  { sampleTracked with
    preferences := { samplePreferences with syncSettings := ⟨[(42, sampleRecordStopped)]⟩ }
    configuredSyncsMap := ⟨[(42, sampleRecordStopped)]⟩
    events := sampleTracked.events ++
      [.syncFolderRemoved "/home/user/docs" "" "\x7b00000000-0000-0000-0000-000000000005\x7d",
       .notifyItemChange "/home/user/docs" STATE_NONE,
       .writeSyncSetting sampleRecordStopped, .syncStateChanged sampleRecordStopped] }

theorem sampleStopped_run :
    sampleTracked.updateSyncSettings sampleEnv (some sampleSyncStopped) 0 sampleUuid =
      some (sampleStopped, some sampleRecordStopped) := by
  decide

theorem syncID_kept_witness :
    sampleTracked.configuredSyncsMap.value sampleSyncStopped.tag = some sampleRecord ∧
    sampleRecord.syncID ≠ "" ∧
    ∃ cs, some sampleRecordStopped = some cs ∧
      sampleStopped.configuredSyncsMap.value sampleSyncStopped.tag = some cs ∧
      cs.syncID = sampleRecord.syncID :=
  ⟨rfl, by decide,
    syncID_kept sampleEnv sampleTracked sampleStopped sampleSyncStopped 0 sampleUuid
      (some sampleRecordStopped) sampleRecord rfl (by decide) sampleStopped_run⟩

/-! ## C4: a removed tag is gone from all three collections -/

/-- C4. In every reachable state: after `removeSyncedFolderByTag(t)` for a
tracked tag `t`, and after `removeSyncedFolder(i)` for a position `i` holding
the tag `t`, the tag is not a key of `configuredSyncsMap`, is not in
`configuredSyncs` and is not in `unattendedDisabledSyncs`. -/
theorem removed_tag_absent (env : Env) (m m' : Model) (t : Int) (hm : Reachable env m)
    (h : (m.configuredSyncsMap.contains t = true ∧ m.removeSyncedFolderByTag env t = some m') ∨
      (∃ i, QList.at m.configuredSyncs i = some t ∧ m.removeSyncedFolder env i = some m')) :
    m'.configuredSyncsMap.contains t = false ∧ t ∉ m'.configuredSyncs ∧
      t ∉ m'.unattendedDisabledSyncs := by
  have hc := Reachable.consistent hm
  rcases h with ⟨hcont, h⟩ | ⟨i, hat, h⟩
  · obtain ⟨h2, h1, h3⟩ := removeSyncedFolderByTag_some hcont h
    refine ⟨?_, ?_, ?_⟩
    · rw [h2, QMap.contains_remove]; simp
    · rw [h1]; simp
    · rw [h3]; simp
  · obtain ⟨key, cs, hk, hv, h2, h1, h3⟩ := removeSyncedFolder_some h
    rw [hat] at hk
    simp only [Option.some.injEq] at hk
    subst hk
    obtain ⟨_, hget⟩ := QList.at_eq_some hat
    have htag : cs.tag = t := hc.keyed t cs hv
    refine ⟨?_, ?_, ?_⟩
    · rw [h2, QMap.contains_remove]; simp
    · rw [h1, QList.removeAt, eraseIdx_eq_filter _ _ _ hc.nodup hget]; simp
    · rw [h3, htag]; simp

/-- The registry after removing tag 42 from `sampleTracked`. -/
def sampleRemoved : Model :=
  { sampleTracked with
    preferences := samplePreferences
    configuredSyncs := []
    configuredSyncsMap := QMap.empty
    events := sampleTracked.events ++
      [.syncFolderRemoved "/home/user/docs" "" "\x7b00000000-0000-0000-0000-000000000005\x7d",
       .notifyItemChange "/home/user/docs" STATE_NONE,
       .removeSyncSetting sampleRecord, .setDisabledSyncTags ∅,
       .syncDisabledListUpdated, .syncRemoved sampleRecord] }

theorem sampleRemoved_run : sampleTracked.removeSyncedFolder sampleEnv 0 = some sampleRemoved := by
  decide

theorem removed_tag_absent_witness :
    Reachable sampleEnv sampleTracked ∧
    QList.at sampleTracked.configuredSyncs 0 = some 42 ∧
    sampleTracked.removeSyncedFolder sampleEnv 0 = some sampleRemoved ∧
    sampleRemoved.configuredSyncsMap.contains 42 = false ∧ (42 : Int) ∉ sampleRemoved.configuredSyncs ∧
      (42 : Int) ∉ sampleRemoved.unattendedDisabledSyncs :=
  ⟨sampleTracked_reachable, rfl, sampleRemoved_run,
    removed_tag_absent sampleEnv sampleTracked sampleRemoved 42 sampleTracked_reachable
      (Or.inr ⟨0, rfl, sampleRemoved_run⟩)⟩

/-! ## C5: re-applying a reconciliation does not append the tag again -/

/-- Consecutive `updateSyncSettings` calls with one `addingState`, one call per
element of `calls` (the SDK sync passed and the UUID drawn if one is needed);
`none` if a call does not run to its end. -/
def Model.updateAll (env : Env) (m : Model) (addingState : Int) :
    List (MegaSync × QUuid) → Option Model
  | [] => some m
  | (sync, uuid) :: rest =>
    match m.updateSyncSettings env (some sync) addingState uuid with
    | none => none
    | some (m1, _) => Model.updateAll env m1 addingState rest

theorem updateAll_tracked {env : Env} {addingState : Int} {t : Int}
    (calls : List (MegaSync × QUuid)) (m m' : Model)
    (htag : ∀ c ∈ calls, c.1.tag = t)
    (hc : m.configuredSyncsMap.contains t = true)
    (h : m.updateAll env addingState calls = some m') :
    m'.configuredSyncs = m.configuredSyncs := by
  induction calls generalizing m with
  | nil =>
    simp only [Model.updateAll, Option.some.injEq] at h
    rw [h]
  | cons c rest ih =>
    obtain ⟨sync, uuid⟩ := c
    have hst : sync.tag = t := htag (sync, uuid) (List.mem_cons_self _ _)
    simp only [Model.updateAll] at h
    cases hq : m.updateSyncSettings env (some sync) addingState uuid with
    | none => rw [hq] at h; exact absurd h (by simp)
    | some q =>
      obtain ⟨m1, r⟩ := q
      rw [hq] at h
      simp only at h
      obtain ⟨cs, new, _, hrec⟩ := updateSyncSettings_some hq
      have hc1 : m1.configuredSyncsMap.contains t = true := by
        simp [QMap.contains, hrec.value, hst]
      have hs1 : m1.configuredSyncs = m.configuredSyncs := by
        rw [hrec.syncs, hst, if_pos hc]
      rw [ih m1 (fun c hcm => htag c (List.mem_cons_of_mem _ hcm)) hc1 h, hs1]

/-- C5. Let `t` be a tag absent from the map and from the sequence, and
`addingState` non-zero. After one or more consecutive `updateSyncSettings`
calls with that `addingState` and SDK syncs of tag `t`, all run to their end,
`t` occurs exactly once in `configuredSyncs`. -/
theorem tag_appended_once (env : Env) (m m' : Model) (t : Int) (addingState : Int)
    (calls : List (MegaSync × QUuid))
    (hmap : m.configuredSyncsMap.contains t = false)
    (hseq : t ∉ m.configuredSyncs)
    (_hadd : addingState ≠ 0)
    (hn : 1 ≤ calls.length)
    (htag : ∀ c ∈ calls, c.1.tag = t)
    (h : m.updateAll env addingState calls = some m') :
    m'.configuredSyncs.count t = 1 := by
  cases calls with
  | nil => simp at hn
  | cons c rest =>
    obtain ⟨sync, uuid⟩ := c
    have hst : sync.tag = t := htag (sync, uuid) (List.mem_cons_self _ _)
    simp only [Model.updateAll] at h
    cases hq : m.updateSyncSettings env (some sync) addingState uuid with
    | none => rw [hq] at h; exact absurd h (by simp)
    | some q =>
      obtain ⟨m1, r⟩ := q
      rw [hq] at h
      simp only at h
      obtain ⟨cs, new, _, hrec⟩ := updateSyncSettings_some hq
      have hc1 : m1.configuredSyncsMap.contains t = true := by
        simp [QMap.contains, hrec.value, hst]
      have hs1 : m1.configuredSyncs = m.configuredSyncs ++ [t] := by
        rw [hrec.syncs, hst, hmap]; simp
      rw [updateAll_tracked rest m1 m' (fun c hcm => htag c (List.mem_cons_of_mem _ hcm)) hc1 h,
        hs1, List.count_append, List.count_eq_zero_of_not_mem hseq]
      simp

/-- The registry after `updateSyncSettings(sampleSync, NEW)` is called on the
empty one and then called again. -/
def sampleTrackedTwice : Model :=
  { sampleTracked with
    events := sampleTracked.events ++
      [.syncFolderAdded "/home/user/docs" "" "\x7b00000000-0000-0000-0000-000000000005\x7d",
       .writeSyncSetting sampleRecord, .syncStateChanged sampleRecord] }

theorem sampleTrackedTwice_run :
    (Model.init samplePreferences false).updateAll sampleEnv SyncAdded.NEW
      [(sampleSync, sampleUuid), (sampleSync, ⟨6⟩)] = some sampleTrackedTwice := by
  decide

theorem tag_appended_once_witness :
    (Model.init samplePreferences false).configuredSyncsMap.contains 42 = false ∧
    (42 : Int) ∉ (Model.init samplePreferences false).configuredSyncs ∧
    SyncAdded.NEW ≠ 0 ∧
    sampleTrackedTwice.configuredSyncs.count 42 = 1 :=
  ⟨rfl, by decide, by decide,
    tag_appended_once sampleEnv (Model.init samplePreferences false) sampleTrackedTwice 42
      SyncAdded.NEW [(sampleSync, sampleUuid), (sampleSync, ⟨6⟩)] rfl (by decide) (by decide)
      (by decide) (by decide) sampleTrackedTwice_run⟩

/-! ## C6: removing all folders -/

/-- C6. With a logged-in session, `removeAllFolders` runs to its end, and after
it the map, the sequence and the unattended-disabled set are empty,
`getNumSyncedFolders` returns 0 and the persistence cache stores no sync
record. -/
theorem removeAllFolders_clears (env : Env) (m : Model)
    (hlogged : m.preferences.logged = true) :
    ∃ m', m.removeAllFolders env = some m' ∧
      m'.configuredSyncsMap = QMap.empty ∧ m'.configuredSyncs = [] ∧
      m'.unattendedDisabledSyncs = ∅ ∧ m'.getNumSyncedFolders = 0 ∧
      m'.preferences.syncSettings.keys = [] := by
  have hs := removeAllFolders_isSome env m (Or.inr hlogged)
  cases hq : m.removeAllFolders env with
  | none => rw [hq] at hs; exact absurd hs (by simp)
  | some m' =>
    obtain ⟨h1, h2, h3, h4⟩ := removeAllFolders_some hq
    refine ⟨m', rfl, h2, h1, h3, ?_, ?_⟩
    · simp [Model.getNumSyncedFolders, h1]
    · rw [h4]; rfl

theorem removeAllFolders_clears_witness :
    sampleTracked.preferences.logged = true ∧
    ∃ m', sampleTracked.removeAllFolders sampleEnv = some m' ∧
      m'.configuredSyncsMap = QMap.empty ∧ m'.configuredSyncs = [] ∧
      m'.unattendedDisabledSyncs = ∅ ∧ m'.getNumSyncedFolders = 0 ∧
      m'.preferences.syncSettings.keys = [] :=
  ⟨rfl, removeAllFolders_clears sampleEnv sampleTracked rfl⟩

/-! ## C7: removing an untracked tag -/

/-- C7. For a tag that is not a key of `configuredSyncsMap`,
`removeSyncedFolderByTag` runs to its end and leaves the whole state as it
was: the map, the sequence, the unattended-disabled set, the preferences, and
the event log, so no signal is emitted and no collaborator is called. -/
theorem removeSyncedFolderByTag_untracked (env : Env) (m : Model) (t : Int)
    (h : m.configuredSyncsMap.contains t = false) :
    m.removeSyncedFolderByTag env t = some m :=
  removeSyncedFolderByTag_absent h

theorem removeSyncedFolderByTag_untracked_witness :
    sampleTracked.configuredSyncsMap.contains 7 = false ∧
    sampleTracked.removeSyncedFolderByTag sampleEnv 7 = some sampleTracked :=
  ⟨rfl, removeSyncedFolderByTag_untracked sampleEnv sampleTracked 7 rfl⟩

/-! ## C8: the result of a reconciliation -/

/-- C8. A call of `updateSyncSettings` with a null sync runs to its end, returns
null and leaves the whole state (collections, preferences, event log) as it
was. A call that runs to its end returns null only if the sync is null. A
call with a non-null sync returns the record stored in the map under the
sync's tag, and it does run to its end when the tag is tracked or
`addingState` is non-zero and the local folder passes the path check of
`activateSync` (or the build has `NDEBUG`). -/
theorem updateSyncSettings_result (env : Env) (m : Model) (addingState : Int) (uuid : QUuid) :
    m.updateSyncSettings env none addingState uuid = some (m, none) ∧
    (∀ sync m' r, m.updateSyncSettings env sync addingState uuid = some (m', r) →
      (r = none ↔ sync = none)) ∧
    (∀ sync m' r, m.updateSyncSettings env (some sync) addingState uuid = some (m', r) →
      ∃ cs, r = some cs ∧ m'.configuredSyncsMap.value sync.tag = some cs) ∧
    (∀ sync, (m.configuredSyncsMap.contains sync.tag = true ∨ addingState ≠ 0) →
      (env.ndebug = true ∨ Model.localFolderIsCanonical env sync.localFolder = true) →
      (m.updateSyncSettings env (some sync) addingState uuid).isSome = true) := by
  refine ⟨rfl, ?_, ?_, ?_⟩
  · intro sync m' r h
    cases sync with
    | none =>
      rw [updateSyncSettings_none] at h
      simp only [Option.some.injEq, Prod.mk.injEq] at h
      simp [← h.2]
    | some s =>
      obtain ⟨cs, new, hr, _⟩ := updateSyncSettings_some h
      simp [hr]
  · intro sync m' r h
    obtain ⟨cs, new, hr, hrec⟩ := updateSyncSettings_some h
    exact ⟨cs, hr, by simpa using hrec.value sync.tag⟩
  · intro sync hadm hcan
    refine updateSyncSettings_isSome env m sync addingState uuid ?_ (fun _ => hcan)
    rcases hadm with h | h
    · exact Or.inl h
    · exact Or.inr (Or.inr h)

theorem updateSyncSettings_result_witness :
    sampleTracked.updateSyncSettings sampleEnv none 0 sampleUuid = some (sampleTracked, none) ∧
    ((some sampleRecordStopped = none) ↔ (some sampleSyncStopped = none)) ∧
    (∃ cs, some sampleRecordStopped = some cs ∧
      sampleStopped.configuredSyncsMap.value sampleSyncStopped.tag = some cs) ∧
    (sampleTracked.updateSyncSettings sampleEnv (some sampleSyncStopped) 0 sampleUuid).isSome
      = true :=
  ⟨(updateSyncSettings_result sampleEnv sampleTracked 0 sampleUuid).1,
   (updateSyncSettings_result sampleEnv sampleTracked 0 sampleUuid).2.1 (some sampleSyncStopped)
     sampleStopped (some sampleRecordStopped) sampleStopped_run,
   (updateSyncSettings_result sampleEnv sampleTracked 0 sampleUuid).2.2.1 sampleSyncStopped
     sampleStopped (some sampleRecordStopped) sampleStopped_run,
   (updateSyncSettings_result sampleEnv sampleTracked 0 sampleUuid).2.2.2 sampleSyncStopped
     (Or.inl rfl) (Or.inr rfl)⟩

/-! ## C9: one cache write and one state-changed signal -/

/-- C9. For every `updateSyncSettings` call with a non-null SDK sync that runs
to its end, with `cs` the returned record: among the events of the call there
is exactly one `preferences->writeSyncSetting` call and it is passed `cs`, and
there is exactly one `syncStateChanged` signal and it carries `cs`. -/
theorem written_and_signalled_once (env : Env) (m m' : Model) (sync : MegaSync)
    (addingState : Int) (uuid : QUuid) (r : Option SyncSetting)
    (h : m.updateSyncSettings env (some sync) addingState uuid = some (m', r)) :
    ∃ cs new, r = some cs ∧ m'.events = m.events ++ new ∧
      writtenSettings new = [cs] ∧ stateChangedSignals new = [cs] := by
  obtain ⟨cs, new, hr, hrec⟩ := updateSyncSettings_some h
  exact ⟨cs, new, hr, hrec.events, hrec.written, hrec.signalled⟩

theorem written_and_signalled_once_witness :
    ∃ cs new, some sampleRecordStopped = some cs ∧
      sampleStopped.events = sampleTracked.events ++ new ∧
      writtenSettings new = [cs] ∧ stateChangedSignals new = [cs] :=
  written_and_signalled_once sampleEnv sampleTracked sampleStopped sampleSyncStopped 0
    sampleUuid (some sampleRecordStopped) sampleStopped_run

/-! ## C10: a new active sync -/

theorem toUpper_toString_ne_empty (u : QUuid) : QString.toUpper u.toString ≠ "" := by
  intro h
  have := congrArg String.data h
  simp [QString.toUpper, QUuid.toString] at this

/-- C10. For an untracked tag and an active SDK sync with that tag (whose local
folder passes the path check of `activateSync`, or in a build with `NDEBUG`),
`updateSyncSettings(sync, NEW)` runs to its end and returns a record that is
active and has a non-empty sync identifier; the tag is appended at the end of
`configuredSyncs`, the elements before it unchanged; activation handling ran
exactly once and deactivation handling not at all. -/
theorem new_active_sync (env : Env) (m : Model) (sync : MegaSync) (uuid : QUuid)
    (huntracked : m.configuredSyncsMap.contains sync.tag = false)
    (hactive : sync.active = true)
    (hpath : env.ndebug = true ∨ Model.localFolderIsCanonical env sync.localFolder = true) :
    ∃ m' cs new,
      m.updateSyncSettings env (some sync) SyncAdded.NEW uuid = some (m', some cs) ∧
      cs.active = true ∧ cs.syncID ≠ "" ∧
      m'.configuredSyncsMap.value sync.tag = some cs ∧
      m'.configuredSyncs = m.configuredSyncs ++ [sync.tag] ∧
      m'.events = m.events ++ new ∧ activations new = 1 ∧ deactivations new = 0 := by
  have hs := updateSyncSettings_isSome env m sync SyncAdded.NEW uuid
    (Or.inr (Or.inr (by decide))) (fun _ => hpath)
  cases hq : m.updateSyncSettings env (some sync) SyncAdded.NEW uuid with
  | none => rw [hq] at hs; exact absurd hs (by simp)
  | some q =>
    obtain ⟨m', r⟩ := q
    obtain ⟨cs, new, hr, hrec⟩ := updateSyncSettings_some hq
    subst hr
    have hla : (m.located sync).active = true := by
      rw [← hactive]; rfl
    have hint : (m.intent sync SyncAdded.NEW).2 = true := by
      simp [Model.intent, Model.transitionIntent, SyncAdded.NEW]
    have hcond : ((m.located sync).active && (m.intent sync SyncAdded.NEW).2) = true := by
      rw [hla, hint]; rfl
    refine ⟨m', cs, new, rfl, ?_, ?_, by simpa using hrec.value sync.tag, ?_, hrec.events,
      ?_, ?_⟩
    · rw [Reconciled.active hrec, hactive]
    · rw [hrec.record]
      by_cases he : (m.located sync).syncID.isEmpty = true
      · rw [if_pos ⟨hcond, he⟩]
        exact toUpper_toString_ne_empty uuid
      · rw [if_neg (fun hh => he hh.2)]
        intro h0
        exact he ((String.isEmpty_iff _).mpr h0)
    · rw [hrec.syncs, huntracked]; simp
    · rw [hrec.activated, if_pos hcond]
    · rw [hrec.deactivated, hla]; simp

theorem new_active_sync_witness :
    (Model.init samplePreferences false).configuredSyncsMap.contains sampleSync.tag = false ∧
    sampleSync.active = true ∧
    ∃ m' cs new,
      (Model.init samplePreferences false).updateSyncSettings sampleEnv (some sampleSync)
        SyncAdded.NEW sampleUuid = some (m', some cs) ∧
      cs.active = true ∧ cs.syncID ≠ "" ∧
      m'.configuredSyncsMap.value sampleSync.tag = some cs ∧
      m'.configuredSyncs = (Model.init samplePreferences false).configuredSyncs ++
        [sampleSync.tag] ∧
      m'.events = (Model.init samplePreferences false).events ++ new ∧
      activations new = 1 ∧ deactivations new = 0 :=
  ⟨rfl, rfl, new_active_sync sampleEnv (Model.init samplePreferences false) sampleSync
    sampleUuid rfl rfl (Or.inr rfl)⟩

/-! ## Lemmas on the unattended-disabled operations -/

/-- The number of `syncDisabledListUpdated` signals in a log. -/
def disabledListSignals (evs : List Event) : Nat :=
  evs.countP (fun e => match e with | .syncDisabledListUpdated => true | _ => false)

/-- The tag sets passed to `preferences->setDisabledSyncTags` in a log, in order. -/
def savedDisabledTags (evs : List Event) : List (Finset Int) :=
  evs.filterMap (fun e => match e with | .setDisabledSyncTags tags => some tags | _ => none)

/-- What one of the four unattended-disabled operations has done when the
in-memory set it leaves is `tags`: the set is saved if and only if a user
session is active, one `syncDisabledListUpdated` signal is emitted, and the
registry is left alone. -/
structure Model.DisabledSetTo (m m' : Model) (tags : Finset Int) : Prop where
  memory : m'.unattendedDisabledSyncs = tags
  persisted : m'.preferences.disabledSyncTags =
    (if m.preferences.logged = true then tags else m.preferences.disabledSyncTags)
  events : m'.events = m.events ++
    ((if m.preferences.logged = true then [Event.setDisabledSyncTags tags] else []) ++
      [Event.syncDisabledListUpdated])
  syncs : m'.configuredSyncs = m.configuredSyncs
  map : m'.configuredSyncsMap = m.configuredSyncsMap
  first : m'.isFirstSyncDone = m.isFirstSyncDone
  logged : m'.preferences.logged = m.preferences.logged

theorem saveAndSignal (m : Model) (tags : Finset Int) :
    m.DisabledSetTo
      ((({ m with unattendedDisabledSyncs := tags } : Model).saveUnattendedDisabledSyncs).emit
        .syncDisabledListUpdated) tags := by
  unfold Model.saveUnattendedDisabledSyncs
  by_cases hl : m.preferences.logged = true
  · simp only [hl, if_true]
    constructor <;> simp [Model.emit, Preferences.setDisabledSyncTags, hl]
  · simp only [hl]
    constructor <;> simp [Model.emit, hl]

theorem addUnattendedDisabledSync_sets (m : Model) (tag : Int) :
    m.DisabledSetTo (m.addUnattendedDisabledSync tag) (insert tag m.unattendedDisabledSyncs) :=
  saveAndSignal m _

theorem removeUnattendedDisabledSync_sets (m : Model) (tag : Int) :
    m.DisabledSetTo (m.removeUnattendedDisabledSync tag) (m.unattendedDisabledSyncs.erase tag) :=
  saveAndSignal m _

theorem setUnattendedDisabledSyncs_sets (m : Model) (tags : Finset Int) :
    m.DisabledSetTo (m.setUnattendedDisabledSyncs tags) tags :=
  saveAndSignal m _

theorem dismissUnattendedDisabledSyncs_sets (m : Model) :
    m.DisabledSetTo m.dismissUnattendedDisabledSyncs ∅ :=
  saveAndSignal m _

theorem DisabledSetTo.counts {m m' : Model} {tags : Finset Int} (h : m.DisabledSetTo m' tags) :
    ∃ new, m'.events = m.events ++ new ∧ disabledListSignals new = 1 ∧
      savedDisabledTags new = (if m.preferences.logged = true then [tags] else []) := by
  refine ⟨_, h.events, ?_, ?_⟩
  · by_cases hl : m.preferences.logged = true <;> simp [hl, disabledListSignals]
  · by_cases hl : m.preferences.logged = true <;> simp [hl, savedDisabledTags]

/-! ## C11: the unattended-disabled set and the registry -/

/-- The discipline under which the unattended-disabled set stays inside the
registry: `addUnattendedDisabledSync` is called for a tracked tag and
`setUnattendedDisabledSyncs` with tracked tags only. The source does not check
either. -/
def Op.disabledWithinRegistry (m : Model) : Op → Prop
  | .addUnattendedDisabledSync tag => m.configuredSyncsMap.contains tag = true
  | .setUnattendedDisabledSyncs tags => ∀ t ∈ tags, m.configuredSyncsMap.contains t = true
  | _ => True

/-- The states of a run in which every operation keeps the discipline
`Op.disabledWithinRegistry`. -/
inductive ReachableWithin (env : Env) : Model → Prop where
  | init (p : Preferences) (firstSyncDone : Bool) :
      ReachableWithin env (Model.init p firstSyncDone)
  | step {m m' : Model} (op : Op) :
      ReachableWithin env m → op.pre m → op.disabledWithinRegistry m →
      op.run env m = some m' → ReachableWithin env m'

theorem ReachableWithin.reachable {env : Env} {m : Model} (h : ReachableWithin env m) :
    Reachable env m := by
  induction h with
  | init p b => exact Reachable.init p b
  | step op _ hpre _ hrun ih => exact Reachable.step op ih hpre hrun

/-- Every tag of the unattended-disabled set is a key of the map. -/
def Model.DisabledTracked (m : Model) : Prop :=
  ∀ t ∈ m.unattendedDisabledSyncs, m.configuredSyncsMap.contains t = true

theorem Model.DisabledTracked.of_no_tags {m : Model} (h : m.unattendedDisabledSyncs = ∅) :
    m.DisabledTracked := by
  intro t ht
  rw [h] at ht
  exact absurd ht (Finset.not_mem_empty t)

theorem Op.run_disabledTracked {env : Env} {m m' : Model} (op : Op) (hc : m.Consistent)
    (hm : m.DisabledTracked) (hguard : op.disabledWithinRegistry m)
    (h : op.run env m = some m') : m'.DisabledTracked := by
  cases op with
  | updateSyncSettings sync addingState uuid =>
    simp only [Op.run, Option.map_eq_some'] at h
    obtain ⟨⟨m1, r⟩, hr, rfl⟩ := h
    cases sync with
    | none =>
      rw [updateSyncSettings_none] at hr
      simp only [Option.some.injEq, Prod.mk.injEq] at hr
      rw [← hr.1]; exact hm
    | some s =>
      obtain ⟨cs, new, _, hrec⟩ := updateSyncSettings_some hr
      intro t ht
      rw [hrec.disabled] at ht
      have := hm t ht
      simp only [QMap.contains, hrec.value] at this ⊢
      by_cases hts : t = s.tag <;> simp [hts, this]
  | removeSyncedFolder num =>
    simp only [Op.run] at h
    obtain ⟨key, cs, _, hv, h2, _, h3⟩ := removeSyncedFolder_some h
    have htag : cs.tag = key := hc.keyed key cs hv
    intro t ht
    rw [h3, htag, Finset.mem_erase] at ht
    rw [h2, QMap.contains_remove]
    simp [ht.1, hm t ht.2]
  | removeSyncedFolderByTag tag =>
    simp only [Op.run] at h
    by_cases hcont : m.configuredSyncsMap.contains tag = true
    · obtain ⟨h2, _, h3⟩ := removeSyncedFolderByTag_some hcont h
      intro t ht
      rw [h3, Finset.mem_erase] at ht
      rw [h2, QMap.contains_remove]
      simp [ht.1, hm t ht.2]
    · have hc' : m.configuredSyncsMap.contains tag = false := by simpa using hcont
      rw [removeSyncedFolderByTag_absent hc'] at h
      simp only [Option.some.injEq] at h
      rw [← h]; exact hm
  | removeAllFolders =>
    simp only [Op.run] at h
    obtain ⟨_, _, h3, _⟩ := removeAllFolders_some h
    exact Model.DisabledTracked.of_no_tags h3
  | rewriteSyncSettings =>
    simp only [Op.run] at h
    obtain ⟨_, h2, h3⟩ := rewriteSyncSettings_some h
    intro t ht
    rw [h3] at ht
    rw [h2]; exact hm t ht
  | pickInfoFromOldSync osd tag loaded =>
    simp only [Op.run] at h
    obtain ⟨hv, _, h3⟩ := pickInfoFromOldSync_some h
    intro t ht
    rw [h3] at ht
    have := hm t ht
    simp only [QMap.contains, hv] at this ⊢
    by_cases hts : t = tag <;> simp [hts, this]
  | reset =>
    simp only [Op.run, Option.some.injEq] at h
    subst h
    exact Model.DisabledTracked.of_no_tags rfl
  | addUnattendedDisabledSync tag =>
    simp only [Op.run, Option.some.injEq] at h
    subst h
    have hs := addUnattendedDisabledSync_sets m tag
    intro t ht
    rw [hs.memory, Finset.mem_insert] at ht
    rw [hs.map]
    rcases ht with ht | ht
    · rw [ht]; exact hguard
    · exact hm t ht
  | removeUnattendedDisabledSync tag =>
    simp only [Op.run, Option.some.injEq] at h
    subst h
    have hs := removeUnattendedDisabledSync_sets m tag
    intro t ht
    rw [hs.memory, Finset.mem_erase] at ht
    rw [hs.map]
    exact hm t ht.2
  | setUnattendedDisabledSyncs tags =>
    simp only [Op.run, Option.some.injEq] at h
    subst h
    have hs := setUnattendedDisabledSyncs_sets m tags
    intro t ht
    rw [hs.memory] at ht
    rw [hs.map]
    exact hguard t ht
  | dismissUnattendedDisabledSyncs =>
    simp only [Op.run, Option.some.injEq] at h
    subst h
    exact Model.DisabledTracked.of_no_tags (dismissUnattendedDisabledSyncs_sets m).memory
  | preferencesChanged p =>
    simp only [Op.run, Option.some.injEq] at h
    subst h
    exact hm

theorem ReachableWithin.disabledTracked {env : Env} {m : Model} (h : ReachableWithin env m) :
    m.DisabledTracked := by
  induction h with
  | init p b => exact Model.DisabledTracked.of_no_tags rfl
  | step op hprev _ hguard hrun ih =>
    exact Op.run_disabledTracked op (Reachable.consistent hprev.reachable) ih hguard hrun

/-- The registry `sampleStopped` after `addUnattendedDisabledSync(42)`: the sync
of tag 42 is tracked, inactive and in the unattended-disabled set. -/
def sampleDisabled : Model := sampleStopped.addUnattendedDisabledSync 42

/-- The empty registry after `addUnattendedDisabledSync(7)`. -/
def sampleDisabledUntracked : Model :=
  (Model.init samplePreferences false).addUnattendedDisabledSync 7

theorem sampleDisabled_within : ReachableWithin sampleEnv sampleDisabled :=
  ReachableWithin.step (.addUnattendedDisabledSync 42)
    (ReachableWithin.step (.updateSyncSettings (some sampleSyncStopped) 0 sampleUuid)
      (ReachableWithin.step (.updateSyncSettings (some sampleSync) SyncAdded.NEW sampleUuid)
        (ReachableWithin.init samplePreferences false) trivial trivial
        (by simp only [Op.run, sampleTracked_run]; rfl))
      trivial trivial (by simp only [Op.run, sampleStopped_run]; rfl))
    trivial (show sampleStopped.configuredSyncsMap.contains 42 = true by decide) rfl

/-- C11, as stated, fails in two ways. After `addUnattendedDisabledSync(7)` on
the empty registry, a reachable state, tag 7 is in the unattended-disabled set
and is not a key of the map. And in the reachable state `sampleDisabled`,
reconciling tag 42 with `FROM_CACHE_REENABLED` and an active SDK sync returns
an active record and leaves 42 in the set. -/
theorem disabled_within_registry_counterexample :
    (Reachable sampleEnv sampleDisabledUntracked ∧
      (7 : Int) ∈ sampleDisabledUntracked.unattendedDisabledSyncs ∧
      sampleDisabledUntracked.configuredSyncsMap.contains 7 = false) ∧
    (Reachable sampleEnv sampleDisabled ∧
      sampleDisabled.configuredSyncsMap.contains 42 = true ∧
      (42 : Int) ∈ sampleDisabled.unattendedDisabledSyncs ∧
      (sampleDisabled.updateSyncSettings sampleEnv (some sampleSync)
          SyncAdded.FROM_CACHE_REENABLED sampleUuid).map
        (fun q => (q.2.map (fun cs => cs.active),
          decide ((42 : Int) ∈ q.1.unattendedDisabledSyncs))) = some (some true, true)) :=
  ⟨⟨Reachable.step (.addUnattendedDisabledSync 7) (Reachable.init samplePreferences false)
      trivial rfl, by decide, by decide⟩,
   ⟨sampleDisabled_within.reachable, by decide, by decide, by decide⟩⟩

/-- C11, amended. In every state reachable through the operations of `Model`
when `addUnattendedDisabledSync` and `setUnattendedDisabledSyncs` are given
tracked tags only: every tag of `unattendedDisabledSyncs` is a key of the map;
a tag is removed from `unattendedDisabledSyncs` when its sync is removed by
`removeSyncedFolderByTag` or `removeSyncedFolder`; and `updateSyncSettings`,
whatever its `addingState` and result, leaves `unattendedDisabledSyncs` as it
was. -/
theorem disabled_within_registry (env : Env) (m : Model) (h : ReachableWithin env m) :
    (∀ t ∈ m.unattendedDisabledSyncs, m.configuredSyncsMap.contains t = true) ∧
    (∀ t m',
      ((m.configuredSyncsMap.contains t = true ∧ m.removeSyncedFolderByTag env t = some m') ∨
        (∃ i, QList.at m.configuredSyncs i = some t ∧ m.removeSyncedFolder env i = some m')) →
      t ∉ m'.unattendedDisabledSyncs) ∧
    (∀ sync addingState uuid m' r,
      m.updateSyncSettings env sync addingState uuid = some (m', r) →
      m'.unattendedDisabledSyncs = m.unattendedDisabledSyncs) := by
  have hc := Reachable.consistent h.reachable
  refine ⟨h.disabledTracked, ?_, ?_⟩
  · intro t m' hrem
    rcases hrem with ⟨hcont, hrun⟩ | ⟨i, hat, hrun⟩
    · obtain ⟨_, _, h3⟩ := removeSyncedFolderByTag_some hcont hrun
      rw [h3]; simp
    · obtain ⟨key, cs, hk, hv, _, _, h3⟩ := removeSyncedFolder_some hrun
      rw [hat] at hk
      simp only [Option.some.injEq] at hk
      subst hk
      rw [h3, hc.keyed t cs hv]; simp
  · intro sync addingState uuid m' r hrun
    cases sync with
    | none =>
      rw [updateSyncSettings_none] at hrun
      simp only [Option.some.injEq, Prod.mk.injEq] at hrun
      rw [← hrun.1]
    | some s =>
      obtain ⟨cs, new, _, hrec⟩ := updateSyncSettings_some hrun
      exact hrec.disabled

theorem disabled_within_registry_witness :
    ReachableWithin sampleEnv sampleDisabled ∧
    (∀ t ∈ sampleDisabled.unattendedDisabledSyncs,
      sampleDisabled.configuredSyncsMap.contains t = true) ∧
    (∃ m', sampleDisabled.removeSyncedFolderByTag sampleEnv 42 = some m' ∧
      (42 : Int) ∉ m'.unattendedDisabledSyncs) ∧
    (∃ m' r, sampleDisabled.updateSyncSettings sampleEnv (some sampleSync)
        SyncAdded.FROM_CACHE_REENABLED sampleUuid = some (m', r) ∧
      m'.unattendedDisabledSyncs = sampleDisabled.unattendedDisabledSyncs) := by
  have hthm := disabled_within_registry sampleEnv sampleDisabled sampleDisabled_within
  refine ⟨sampleDisabled_within, hthm.1, ?_, ?_⟩
  · cases hq : sampleDisabled.removeSyncedFolderByTag sampleEnv 42 with
    | none => exact absurd hq (by decide)
    | some m' => exact ⟨m', rfl, hthm.2.1 42 m' (Or.inl ⟨by decide, hq⟩)⟩
  · cases hq : sampleDisabled.updateSyncSettings sampleEnv (some sampleSync)
        SyncAdded.FROM_CACHE_REENABLED sampleUuid with
    | none => exact absurd hq (by decide)
    | some q => exact ⟨q.1, q.2, rfl, hthm.2.2 _ _ _ q.1 q.2 hq⟩

/-! ## C12: self-transitions -/

/-- C12, as stated, fails. In `sampleTracked` the record of tag 42 is active;
`updateSyncSettings` with an active SDK sync of tag 42 and `addingState = NEW`
runs activation handling once more. In `sampleStopped` the record is inactive;
`updateSyncSettings` with an inactive SDK sync and
`addingState = FROM_CACHE_FAILED_TO_RESUME` runs deactivation handling. -/
theorem no_self_transition_counterexample :
    (sampleTracked.configuredSyncsMap.value sampleSync.tag = some sampleRecord ∧
      sampleRecord.active = true ∧ sampleSync.active = true ∧
      sampleTracked.updateSyncSettings sampleEnv (some sampleSync) SyncAdded.NEW ⟨6⟩ =
        some (sampleTrackedTwice, some sampleRecord) ∧
      sampleTrackedTwice.events = sampleTracked.events ++
        [.syncFolderAdded "/home/user/docs" "" "\x7b00000000-0000-0000-0000-000000000005\x7d",
         .writeSyncSetting sampleRecord, .syncStateChanged sampleRecord] ∧
      activations
        [.syncFolderAdded "/home/user/docs" "" "\x7b00000000-0000-0000-0000-000000000005\x7d",
         .writeSyncSetting sampleRecord, .syncStateChanged sampleRecord] = 1) ∧
    (sampleStopped.configuredSyncsMap.value sampleSyncStopped.tag = some sampleRecordStopped ∧
      sampleRecordStopped.active = false ∧ sampleSyncStopped.active = false ∧
      (sampleStopped.updateSyncSettings sampleEnv (some sampleSyncStopped)
          SyncAdded.FROM_CACHE_FAILED_TO_RESUME sampleUuid).map
        (fun q => (q.2.map (fun cs => cs.active),
          deactivations (q.1.events.drop sampleStopped.events.length))) =
        some (some false, 1)) :=
  ⟨⟨by decide, rfl, rfl, by decide, rfl, by decide⟩, ⟨by decide, rfl, rfl, by decide⟩⟩

/-- C12, amended. For a tracked record and an `updateSyncSettings` call for its
tag that runs to its end: if the record is active before and the SDK sync is
active, activation handling is not run, unless `addingState` is `NEW`,
`FROM_CACHE_REENABLED` or `REENABLED_FAILED`, and then it is run once; if the
record is inactive before and the SDK sync is inactive, deactivation handling
is not run, unless `addingState` is `FROM_CACHE_FAILED_TO_RESUME`, and then it
is run once. -/
theorem no_self_transition (env : Env) (m m' : Model) (sync : MegaSync) (addingState : Int)
    (uuid : QUuid) (r : Option SyncSetting) (old : SyncSetting)
    (hold : m.configuredSyncsMap.value sync.tag = some old)
    (h : m.updateSyncSettings env (some sync) addingState uuid = some (m', r)) :
    ∃ new, m'.events = m.events ++ new ∧
      (old.active = true → sync.active = true →
        activations new = (if addingState = SyncAdded.NEW
          ∨ addingState = SyncAdded.FROM_CACHE_REENABLED
          ∨ addingState = SyncAdded.REENABLED_FAILED then 1 else 0)) ∧
      (old.active = false → sync.active = false →
        deactivations new =
          (if addingState = SyncAdded.FROM_CACHE_FAILED_TO_RESUME then 1 else 0)) := by
  obtain ⟨cs, new, _, hrec⟩ := updateSyncSettings_some h
  have hla : (m.located sync).active = sync.active := rfl
  refine ⟨new, hrec.events, ?_, ?_⟩
  · intro hb ha
    rw [hrec.activated, hla, ha]
    simp only [Model.intent, Model.transitionIntent, hold, hb, hla, ha]
    by_cases h0 : addingState = 0
    · subst h0
      simp [SyncAdded.NEW, SyncAdded.FROM_CACHE_REENABLED, SyncAdded.REENABLED_FAILED]
    · simp only [h0, ne_eq, not_false_eq_true, if_true]
      by_cases h1 : addingState = SyncAdded.NEW
      · simp [h1]
      · by_cases h2 : addingState = SyncAdded.FROM_CACHE_REENABLED
        · simp [h2]
        · by_cases h3 : addingState = SyncAdded.REENABLED_FAILED
          · simp [h3]
          · simp [h1, h2, h3]
  · intro hb ha
    rw [hrec.deactivated, hla, ha]
    simp only [Model.intent, Model.transitionIntent, hold, hb, hla, ha]
    by_cases h0 : addingState = 0
    · subst h0
      simp [SyncAdded.FROM_CACHE_FAILED_TO_RESUME]
    · simp only [h0, ne_eq, not_false_eq_true, if_true]
      by_cases h1 : addingState = SyncAdded.FROM_CACHE_FAILED_TO_RESUME
      · simp [h1]
      · simp [h1]

theorem no_self_transition_witness :
    sampleTracked.configuredSyncsMap.value sampleSync.tag = some sampleRecord ∧
    sampleRecord.active = true ∧ sampleSync.active = true ∧
    ∃ m' r new, sampleTracked.updateSyncSettings sampleEnv (some sampleSync) 0 sampleUuid =
        some (m', r) ∧ m'.events = sampleTracked.events ++ new ∧ activations new = 0 := by
  refine ⟨by decide, rfl, rfl, ?_⟩
  cases hq : sampleTracked.updateSyncSettings sampleEnv (some sampleSync) 0 sampleUuid with
  | none => exact absurd hq (by decide)
  | some q =>
    obtain ⟨new, hev, hact, _⟩ := no_self_transition sampleEnv sampleTracked q.1 sampleSync 0
      sampleUuid q.2 sampleRecord (by decide) hq
    exact ⟨q.1, q.2, new, rfl, hev, by rw [hact rfl rfl]; decide⟩

/-! ## C13: the unattended-disabled operations -/

/-- What C13 says of one operation that is to leave the set `tags` in memory:
the in-memory set is `tags`; with a user session the persisted set is `tags`
and `preferences->setDisabledSyncTags` was called once, with `tags`; without
one the persisted set is as before and the call was not made; and exactly one
`syncDisabledListUpdated` signal was emitted. -/
def Model.DisabledUpdated (m m' : Model) (tags : Finset Int) : Prop :=
  m'.unattendedDisabledSyncs = tags ∧
  (m.preferences.logged = true → m'.preferences.disabledSyncTags = tags) ∧
  (m.preferences.logged = false →
    m'.preferences.disabledSyncTags = m.preferences.disabledSyncTags) ∧
  ∃ new, m'.events = m.events ++ new ∧ disabledListSignals new = 1 ∧
    savedDisabledTags new = (if m.preferences.logged = true then [tags] else [])

theorem DisabledSetTo.updated {m m' : Model} {tags : Finset Int} (h : m.DisabledSetTo m' tags) :
    m.DisabledUpdated m' tags := by
  refine ⟨h.memory, ?_, ?_, DisabledSetTo.counts h⟩
  · intro hl; rw [h.persisted, if_pos hl]
  · intro hl; rw [h.persisted, hl]; simp

/-- C13. `addUnattendedDisabledSync(t)`, `removeUnattendedDisabledSync(t)`,
`setUnattendedDisabledSyncs(s)` and `dismissUnattendedDisabledSyncs()` leave in
memory the old set with `t` added, the old set without `t`, `s`, and the empty
set; each saves the new set to the preferences if a user session is active
and leaves the persisted set alone otherwise; each emits exactly one
`syncDisabledListUpdated` signal. -/
theorem disabled_operations (m : Model) (t : Int) (s : Finset Int) :
    m.DisabledUpdated (m.addUnattendedDisabledSync t) (m.unattendedDisabledSyncs ∪ {t}) ∧
    m.DisabledUpdated (m.removeUnattendedDisabledSync t) (m.unattendedDisabledSyncs \ {t}) ∧
    m.DisabledUpdated (m.setUnattendedDisabledSyncs s) s ∧
    m.DisabledUpdated m.dismissUnattendedDisabledSyncs ∅ := by
  refine ⟨?_, ?_, DisabledSetTo.updated (setUnattendedDisabledSyncs_sets m s),
    DisabledSetTo.updated (dismissUnattendedDisabledSyncs_sets m)⟩
  · have h := DisabledSetTo.updated (addUnattendedDisabledSync_sets m t)
    have he : insert t m.unattendedDisabledSyncs = m.unattendedDisabledSyncs ∪ {t} := by
      ext x; simp [or_comm]
    rw [he] at h; exact h
  · have h := DisabledSetTo.updated (removeUnattendedDisabledSync_sets m t)
    have he : m.unattendedDisabledSyncs.erase t = m.unattendedDisabledSyncs \ {t} := by
      ext x; simp [and_comm]
    rw [he] at h; exact h

theorem disabled_operations_witness :
    sampleTracked.DisabledUpdated (sampleTracked.addUnattendedDisabledSync 42)
      (sampleTracked.unattendedDisabledSyncs ∪ {42}) ∧
    sampleTracked.DisabledUpdated (sampleTracked.removeUnattendedDisabledSync 42)
      (sampleTracked.unattendedDisabledSyncs \ {42}) ∧
    sampleTracked.DisabledUpdated (sampleTracked.setUnattendedDisabledSyncs {42, 43}) {42, 43} ∧
    sampleTracked.DisabledUpdated sampleTracked.dismissUnattendedDisabledSyncs ∅ :=
  disabled_operations sampleTracked 42 {42, 43}

/-! ## Lemmas on the events of a removal -/

/-- The events of removing the record `cs` when `tag` is what is passed to
`removeUnattendedDisabledSync`: deactivation if the record is active, the
removal from the cache, the save of the unattended-disabled set if a user
session is active, and the two signals. -/
def removalEvents (m : Model) (cs : SyncSetting) (tag : Int) : List Event :=
  (if cs.active = true then
      [Event.syncFolderRemoved cs.localFolder cs.name cs.syncID,
       Event.notifyItemChange cs.localFolder STATE_NONE]
    else []) ++
  [Event.removeSyncSetting cs] ++
  (if m.preferences.logged = true then
      [Event.setDisabledSyncTags (m.unattendedDisabledSyncs.erase tag)]
    else []) ++
  [Event.syncDisabledListUpdated, Event.syncRemoved cs]

theorem removeSyncedFolderByTag_events {env : Env} {m m' : Model} {tag : Int}
    {cs : SyncSetting} (hv : m.configuredSyncsMap.value tag = some cs)
    (h : m.removeSyncedFolderByTag env tag = some m') :
    m'.events = m.events ++ removalEvents m cs tag ∧
    m'.isFirstSyncDone = m.isFirstSyncDone := by
  have hc : m.configuredSyncsMap.contains tag = true := by simp [QMap.contains, hv]
  unfold Model.removeSyncedFolderByTag at h
  simp only [hc, Bool.not_true, Bool.false_eq_true, if_false, hv] at h
  split at h
  · exact absurd h (by simp)
  · simp only [Option.some.injEq] at h
    subst h
    by_cases ha : cs.active = true <;> by_cases hl : m.preferences.logged = true <;>
      simp [removalEvents, Model.removeUnattendedDisabledSync,
        Model.saveUnattendedDisabledSyncs, Model.emit, Model.deactivateSync,
        Preferences.removeSyncSetting, Preferences.setDisabledSyncTags, ha, hl]

theorem removeSyncedFolder_events {env : Env} {m m' : Model} {num : Int} {key : Int}
    {cs : SyncSetting} (hk : QList.at m.configuredSyncs num = some key)
    (hv : m.configuredSyncsMap.value key = some cs)
    (h : m.removeSyncedFolder env num = some m') :
    m'.events = m.events ++ removalEvents m cs cs.tag ∧
    m'.isFirstSyncDone = m.isFirstSyncDone := by
  unfold Model.removeSyncedFolder at h
  simp only [hk, hv] at h
  split at h
  · exact absurd h (by simp)
  · split at h
    · exact absurd h (by simp)
    · simp only [Option.some.injEq] at h
      subst h
      by_cases ha : cs.active = true <;> by_cases hl : m.preferences.logged = true <;>
        simp [removalEvents, Model.removeUnattendedDisabledSync,
          Model.saveUnattendedDisabledSyncs, Model.emit, Model.deactivateSync,
          Preferences.removeSyncSetting, Preferences.setDisabledSyncTags, ha, hl]

/-- The number of `sendEvent(99501, ...)` calls in a log. -/
def firstSyncEvents (evs : List Event) : Nat :=
  evs.countP (fun e => match e with | .sendEvent code _ => code == 99501 | _ => false)

/-- Consecutive operations; `none` if one of them does not run to its end. -/
def Op.runAll (env : Env) : Model → List Op → Option Model
  | m, [] => some m
  | m, op :: rest =>
    match op.run env m with
    | none => none
    | some m1 => Op.runAll env m1 rest

/-- Whether the operation is `reset`. -/
def Op.isReset : Op → Bool
  | .reset => true
  | _ => false

/-- How one operation other than `reset` moves the count of first-sync events
and the flag `isFirstSyncDone`: at most one more event, none once the flag is
set, the flag stays set, and it is set after an event. -/
structure Model.FirstSyncStep (m m' : Model) : Prop where
  le : firstSyncEvents m'.events ≤ firstSyncEvents m.events + 1
  ge : firstSyncEvents m.events ≤ firstSyncEvents m'.events
  keeps : m.isFirstSyncDone = true →
    firstSyncEvents m'.events = firstSyncEvents m.events ∧ m'.isFirstSyncDone = true
  sets : firstSyncEvents m'.events = firstSyncEvents m.events + 1 → m'.isFirstSyncDone = true

theorem FirstSyncStep.of_same {m m' : Model}
    (h1 : firstSyncEvents m'.events = firstSyncEvents m.events)
    (h2 : m'.isFirstSyncDone = m.isFirstSyncDone) : m.FirstSyncStep m' := by
  constructor
  · omega
  · omega
  · intro h; exact ⟨h1, by rw [h2, h]⟩
  · intro h; omega

theorem FirstSyncStep.of_events {m m' : Model} {new : List Event}
    (h1 : m'.events = m.events ++ new) (h0 : firstSyncEvents new = 0)
    (h2 : m'.isFirstSyncDone = m.isFirstSyncDone) : m.FirstSyncStep m' := by
  refine FirstSyncStep.of_same ?_ h2
  rw [h1]
  unfold firstSyncEvents at h0 ⊢
  rw [List.countP_append, h0]; rfl

theorem activateSync_firstSync {env : Env} {m m2 : Model} {cs cs2 : SyncSetting} {uuid : QUuid}
    (h : m.activateSync env cs uuid = some (m2, cs2)) :
    firstSyncEvents m2.events = firstSyncEvents m.events +
      (if m.isFirstSyncDone = false ∧ m.preferences.firstSyncDone = false then 1 else 0) ∧
    m2.isFirstSyncDone = true := by
  refine ⟨?_, (activateSync_some h).2.2.1⟩
  unfold Model.activateSync at h
  split at h
  · exact absurd h (by simp)
  · simp only [Option.some.injEq, Prod.mk.injEq] at h
    obtain ⟨h1, _⟩ := h
    subst h1
    simp only [Model.emit]
    split_ifs <;> simp_all [firstSyncEvents, List.countP_append]

theorem applyTransition_firstSync {env : Env} {m m2 : Model} {tag : Int} {cs cs2 : SyncSetting}
    {wasActive wasInactive : Bool} {uuid : QUuid}
    (h : m.applyTransition env tag cs wasActive wasInactive uuid = some (m2, cs2)) :
    firstSyncEvents m2.events = firstSyncEvents m.events +
      (if (cs.active && wasInactive) = true ∧ m.isFirstSyncDone = false ∧
        m.preferences.firstSyncDone = false then 1 else 0) ∧
    m2.isFirstSyncDone = (m.isFirstSyncDone || (cs.active && wasInactive)) := by
  unfold Model.applyTransition at h
  by_cases hact : (cs.active && wasInactive) = true
  · simp only [hact, if_true] at h
    cases ha : m.activateSync env cs uuid with
    | none => simp [ha] at h
    | some q =>
      obtain ⟨ma, csa⟩ := q
      obtain ⟨hcs, _, _, _⟩ := activateSync_some ha
      obtain ⟨hcount, hdone⟩ := activateSync_firstSync ha
      have hactive : csa.active = cs.active := by
        rw [hcs]; split_ifs <;> rfl
      have hcsa : cs.active = true := by
        cases hx : cs.active <;> simp [hx] at hact ⊢
      have hna : (!csa.active && wasActive) = false := by simp [hactive, hcsa]
      simp only [ha, hna] at h
      simp only [Bool.false_eq_true, if_false, Option.some.injEq, Prod.mk.injEq] at h
      obtain ⟨h1, _⟩ := h
      subst h1
      refine ⟨?_, ?_⟩
      · show firstSyncEvents ma.events = _
        rw [hcount]; simp [hact]
      · show ma.isFirstSyncDone = _
        rw [hdone, hact]; simp
  · simp only [hact] at h
    simp only [Bool.false_eq_true, if_false] at h
    have hact' : (cs.active && wasInactive) = false := by simpa using hact
    by_cases hde : (!cs.active && wasActive) = true
    · simp only [hde, if_true, Option.some.injEq, Prod.mk.injEq] at h
      obtain ⟨h1, _⟩ := h
      subst h1
      refine ⟨?_, ?_⟩
      · rw [deactivateSync_events]
        simp [firstSyncEvents, List.countP_append, hact]
      · rw [deactivateSync_isFirstSyncDone, hact']; simp
    · simp only [hde] at h
      simp only [Bool.false_eq_true, if_false, Option.some.injEq, Prod.mk.injEq] at h
      obtain ⟨h1, _⟩ := h
      subst h1
      exact ⟨by simp [hact], by rw [hact']; simp⟩

theorem updateSyncSettings_firstSync {env : Env} {m m' : Model} {sync : MegaSync}
    {addingState : Int} {uuid : QUuid} {r : Option SyncSetting}
    (h : m.updateSyncSettings env (some sync) addingState uuid = some (m', r)) :
    ∃ activated : Bool,
      firstSyncEvents m'.events = firstSyncEvents m.events +
        (if activated = true ∧ m.isFirstSyncDone = false ∧
          m.preferences.firstSyncDone = false then 1 else 0) ∧
      m'.isFirstSyncDone = (m.isFirstSyncDone || activated) := by
  unfold Model.updateSyncSettings at h
  simp only at h
  cases hl : m.locateSync env sync addingState with
  | none => rw [hl] at h; exact absurd h (by simp)
  | some q =>
    obtain ⟨m1, cs1, wa, wi⟩ := q
    rw [hl] at h
    simp only at h
    obtain ⟨_, hev1, hp1, hf1, _⟩ := locateSync_some hl
    cases ht : m1.applyTransition env sync.tag cs1
        (Model.transitionIntent addingState cs1 wa wi).1
        (Model.transitionIntent addingState cs1 wa wi).2 uuid with
    | none => rw [ht] at h; exact absurd h (by simp)
    | some q2 =>
      obtain ⟨m2, cs2⟩ := q2
      rw [ht] at h
      simp only [Option.some.injEq, Prod.mk.injEq] at h
      obtain ⟨hm', _⟩ := h
      obtain ⟨hcount, hdone⟩ := applyTransition_firstSync ht
      rw [hev1, hp1, hf1] at hcount
      rw [hf1] at hdone
      refine ⟨cs1.active && (Model.transitionIntent addingState cs1 wa wi).2, ?_, ?_⟩
      · rw [← hcount, ← hm']
        simp only [Model.emit]
        split_ifs <;> simp [firstSyncEvents, List.countP_append]
      · rw [← hdone, ← hm']
        simp only [Model.emit]
        split_ifs <;> rfl

theorem deactivateAll_firstSync (l : List SyncSetting) (m : Model) :
    firstSyncEvents
      (l.foldl (fun m cs => if cs.active then m.deactivateSync cs else m) m).events =
      firstSyncEvents m.events ∧
    (l.foldl (fun m cs => if cs.active then m.deactivateSync cs else m) m).isFirstSyncDone =
      m.isFirstSyncDone := by
  induction l generalizing m with
  | nil => exact ⟨rfl, rfl⟩
  | cons cs rest ih =>
    simp only [List.foldl_cons]
    obtain ⟨h1, h2⟩ := ih (if cs.active = true then m.deactivateSync cs else m)
    rw [h1, h2]
    split_ifs
    · exact ⟨by rw [deactivateSync_events]; simp [firstSyncEvents, List.countP_append], rfl⟩
    · exact ⟨rfl, rfl⟩

theorem removeAllFolders_firstSync {env : Env} {m m' : Model}
    (h : m.removeAllFolders env = some m') : m.FirstSyncStep m' := by
  unfold Model.removeAllFolders at h
  split at h
  · exact absurd h (by simp)
  · simp only [Option.some.injEq] at h
    subst h
    refine FirstSyncStep.of_same ?_ ?_
    · refine Eq.trans (deactivateAll_firstSync _ _).1 ?_
      simp [Model.emit, firstSyncEvents, List.countP_append]
    · exact (deactivateAll_firstSync _ _).2

theorem rewriteFold_firstSync (l : List Int) (m0 m' : Model)
    (h : l.foldl (fun (acc : Option Model) tag =>
      match acc with
      | none => none
      | some m =>
        match m.configuredSyncsMap.value tag with
        | none => none
        | some cs =>
          some (({ m with preferences := m.preferences.writeSyncSetting cs }).emit
            (.writeSyncSetting cs))) (some m0) = some m') :
    firstSyncEvents m'.events = firstSyncEvents m0.events ∧
    m'.isFirstSyncDone = m0.isFirstSyncDone := by
  induction l generalizing m0 with
  | nil =>
    simp only [List.foldl_nil, Option.some.injEq] at h
    subst h
    exact ⟨rfl, rfl⟩
  | cons a rest ih =>
    simp only [List.foldl_cons] at h
    cases hv : m0.configuredSyncsMap.value a with
    | none =>
      rw [hv] at h
      simp only at h
      rw [rewriteFold_none] at h
      exact absurd h (by simp)
    | some cs =>
      rw [hv] at h
      simp only at h
      obtain ⟨h1, h2⟩ := ih _ h
      refine ⟨h1.trans ?_, h2.trans rfl⟩
      simp [Model.emit, firstSyncEvents, List.countP_append]

theorem rewriteSyncSettings_firstSync {m m' : Model} (h : m.rewriteSyncSettings = some m') :
    m.FirstSyncStep m' := by
  unfold Model.rewriteSyncSettings at h
  obtain ⟨h1, h2⟩ := rewriteFold_firstSync _
    (({ m with preferences := m.preferences.removeAllSyncSettings }).emit
      .removeAllSyncSettings) m' h
  refine FirstSyncStep.of_same (h1.trans ?_) (h2.trans rfl)
  simp [Model.emit, firstSyncEvents, List.countP_append]

theorem pickInfoFromOldSync_firstSync {env : Env} {m m' : Model} {osd : SyncData} {tag : Int}
    {loaded : Bool} (h : m.pickInfoFromOldSync env osd tag loaded = some m') :
    m.FirstSyncStep m' := by
  unfold Model.pickInfoFromOldSync at h
  split at h
  · exact absurd h (by simp)
  · split at h
    · exact absurd h (by simp)
    · simp only at h
      split at h
      · exact absurd h (by simp)
      · simp only [Option.some.injEq] at h
        subst h
        exact FirstSyncStep.of_same
          (by simp [Model.emit, Model.store, firstSyncEvents, List.countP_append]) rfl

theorem firstSyncEvents_removalEvents (m : Model) (cs : SyncSetting) (tag : Int) :
    firstSyncEvents (removalEvents m cs tag) = 0 := by
  unfold removalEvents firstSyncEvents
  by_cases ha : cs.active = true <;> by_cases hl : m.preferences.logged = true <;>
    simp [ha, hl]

theorem DisabledSetTo.firstSync {m m' : Model} {tags : Finset Int}
    (h : m.DisabledSetTo m' tags) : m.FirstSyncStep m' := by
  refine FirstSyncStep.of_events h.events ?_ h.first
  by_cases hl : m.preferences.logged = true <;> simp [hl, firstSyncEvents]

theorem Op.run_firstSync {env : Env} {m m' : Model} (op : Op) (hop : op.isReset = false)
    (h : op.run env m = some m') : m.FirstSyncStep m' := by
  cases op with
  | updateSyncSettings sync addingState uuid =>
    simp only [Op.run, Option.map_eq_some'] at h
    obtain ⟨⟨m1, r⟩, hr, rfl⟩ := h
    cases sync with
    | none =>
      rw [updateSyncSettings_none] at hr
      simp only [Option.some.injEq, Prod.mk.injEq] at hr
      rw [← hr.1]; exact FirstSyncStep.of_same rfl rfl
    | some s =>
      obtain ⟨activated, hcount, hdone⟩ := updateSyncSettings_firstSync hr
      constructor
      · show firstSyncEvents m1.events ≤ _
        rw [hcount]; split_ifs <;> omega
      · show _ ≤ firstSyncEvents m1.events
        rw [hcount]; omega
      · intro hf
        show firstSyncEvents m1.events = _ ∧ m1.isFirstSyncDone = true
        rw [hcount, hdone, hf]
        simp
      · intro hone
        show m1.isFirstSyncDone = true
        have hone' : firstSyncEvents m1.events = firstSyncEvents m.events + 1 := hone
        rw [hcount] at hone'
        rw [hdone]
        split_ifs at hone' with hc
        · rw [hc.1]; simp
        · omega
  | removeSyncedFolder num =>
    simp only [Op.run] at h
    obtain ⟨key, cs, hk, hv, _⟩ := removeSyncedFolder_some h
    obtain ⟨h1, h2⟩ := removeSyncedFolder_events hk hv h
    exact FirstSyncStep.of_events h1 (firstSyncEvents_removalEvents _ _ _) h2
  | removeSyncedFolderByTag tag =>
    simp only [Op.run] at h
    cases hv : m.configuredSyncsMap.value tag with
    | none =>
      have hc' : m.configuredSyncsMap.contains tag = false := by simp [QMap.contains, hv]
      rw [removeSyncedFolderByTag_absent hc'] at h
      simp only [Option.some.injEq] at h
      rw [← h]; exact FirstSyncStep.of_same rfl rfl
    | some cs =>
      obtain ⟨h1, h2⟩ := removeSyncedFolderByTag_events hv h
      exact FirstSyncStep.of_events h1 (firstSyncEvents_removalEvents _ _ _) h2
  | removeAllFolders => exact removeAllFolders_firstSync h
  | rewriteSyncSettings => exact rewriteSyncSettings_firstSync h
  | pickInfoFromOldSync osd tag loaded => exact pickInfoFromOldSync_firstSync h
  | reset => exact absurd hop (by simp [Op.isReset])
  | addUnattendedDisabledSync tag =>
    simp only [Op.run, Option.some.injEq] at h
    subst h
    exact DisabledSetTo.firstSync (addUnattendedDisabledSync_sets m tag)
  | removeUnattendedDisabledSync tag =>
    simp only [Op.run, Option.some.injEq] at h
    subst h
    exact DisabledSetTo.firstSync (removeUnattendedDisabledSync_sets m tag)
  | setUnattendedDisabledSyncs tags =>
    simp only [Op.run, Option.some.injEq] at h
    subst h
    exact DisabledSetTo.firstSync (setUnattendedDisabledSyncs_sets m tags)
  | dismissUnattendedDisabledSyncs =>
    simp only [Op.run, Option.some.injEq] at h
    subst h
    exact DisabledSetTo.firstSync (dismissUnattendedDisabledSyncs_sets m)
  | preferencesChanged p =>
    simp only [Op.run, Option.some.injEq] at h
    subst h
    exact FirstSyncStep.of_same rfl rfl

theorem FirstSyncStep.refl (m : Model) : m.FirstSyncStep m :=
  FirstSyncStep.of_same rfl rfl

theorem FirstSyncStep.trans {m m1 m' : Model} (h1 : m.FirstSyncStep m1)
    (h2 : m1.FirstSyncStep m') : m.FirstSyncStep m' := by
  have hle1 := h1.le
  have hge1 := h1.ge
  have hle2 := h2.le
  have hge2 := h2.ge
  constructor
  · by_cases hs : firstSyncEvents m1.events = firstSyncEvents m.events + 1
    · have := (h2.keeps (h1.sets hs)).1
      omega
    · omega
  · omega
  · intro hf
    obtain ⟨ha, hb⟩ := h1.keeps hf
    obtain ⟨hc, hd⟩ := h2.keeps hb
    exact ⟨hc.trans ha, hd⟩
  · intro hone
    by_cases hs : firstSyncEvents m1.events = firstSyncEvents m.events + 1
    · exact (h2.keeps (h1.sets hs)).2
    · exact h2.sets (by omega)

theorem Op.runAll_firstSync {env : Env} (ops : List Op) (m m' : Model)
    (hno : ∀ op ∈ ops, op.isReset = false) (h : Op.runAll env m ops = some m') :
    m.FirstSyncStep m' := by
  induction ops generalizing m with
  | nil =>
    simp only [Op.runAll, Option.some.injEq] at h
    rw [← h]; exact FirstSyncStep.refl m
  | cons op rest ih =>
    simp only [Op.runAll] at h
    cases hq : op.run env m with
    | none => rw [hq] at h; exact absurd h (by simp)
    | some m1 =>
      rw [hq] at h
      simp only at h
      exact FirstSyncStep.trans (Op.run_firstSync op (hno op (List.mem_cons_self _ _)) hq)
        (ih m1 (fun o ho => hno o (List.mem_cons_of_mem _ ho)) h)

/-- C14, as stated, fails. From the empty registry with the persisted flag
unset, the operations `updateSyncSettings(sampleSync, NEW)`, `reset`,
`updateSyncSettings(sampleSync, NEW)` all run to their end and leave two
`sendEvent(99501, ...)` calls in the log: `reset` clears `isFirstSyncDone`, and
the activation after it sends the event again. -/
theorem first_sync_event_counterexample :
    (Op.runAll sampleEnv (Model.init samplePreferences false)
      [.updateSyncSettings (some sampleSync) SyncAdded.NEW sampleUuid, .reset,
       .updateSyncSettings (some sampleSync) SyncAdded.NEW sampleUuid]).map
      (fun m => (firstSyncEvents m.events, activations m.events)) = some (2, 2) := by
  decide

/-- C14, amended. Over every sequence of operations of `Model` that contains no
`reset` and runs to its end, from any state, at most one
`sendEvent(99501, ...)` call is added to the log, and none if `isFirstSyncDone`
is set at the start. Activation handling sets `isFirstSyncDone`, and sends the
event exactly when neither `isFirstSyncDone` nor the persisted flag
`preferences->isFirstSyncDone()` is set; so, without a `reset`, no activation
after the first sends it. -/
theorem first_sync_event (env : Env) (m m' : Model) (ops : List Op)
    (hnoreset : ∀ op ∈ ops, op.isReset = false)
    (h : Op.runAll env m ops = some m') :
    firstSyncEvents m'.events ≤ firstSyncEvents m.events + 1 ∧
    (m.isFirstSyncDone = true → firstSyncEvents m'.events = firstSyncEvents m.events) ∧
    (∀ cs uuid m2 cs2, m.activateSync env cs uuid = some (m2, cs2) →
      m2.isFirstSyncDone = true ∧
      firstSyncEvents m2.events = firstSyncEvents m.events +
        (if m.isFirstSyncDone = false ∧ m.preferences.firstSyncDone = false then 1 else 0)) := by
  have hstep := Op.runAll_firstSync ops m m' hnoreset h
  refine ⟨hstep.le, fun hf => (hstep.keeps hf).1, ?_⟩
  intro cs uuid m2 cs2 ha
  obtain ⟨h1, h2⟩ := activateSync_firstSync ha
  exact ⟨h2, h1⟩

theorem first_sync_event_witness :
    (∀ op ∈ [Op.updateSyncSettings (some sampleSync) SyncAdded.NEW sampleUuid,
        Op.updateSyncSettings (some sampleSync) SyncAdded.NEW ⟨6⟩], op.isReset = false) ∧
    Op.runAll sampleEnv (Model.init samplePreferences false)
      [.updateSyncSettings (some sampleSync) SyncAdded.NEW sampleUuid,
       .updateSyncSettings (some sampleSync) SyncAdded.NEW ⟨6⟩] = some sampleTrackedTwice ∧
    activations sampleTrackedTwice.events = 2 ∧
    firstSyncEvents sampleTrackedTwice.events ≤
      firstSyncEvents (Model.init samplePreferences false).events + 1 :=
  ⟨by simp [Op.isReset], by decide, by decide,
    (first_sync_event sampleEnv (Model.init samplePreferences false) sampleTrackedTwice
      [.updateSyncSettings (some sampleSync) SyncAdded.NEW sampleUuid,
       .updateSyncSettings (some sampleSync) SyncAdded.NEW ⟨6⟩]
      (by simp [Op.isReset]) (by decide)).1⟩

/-! ## C15: a removal touches only the removed sync -/

/-- An active SDK sync with tag 41. -/
def sampleSyncA : MegaSync := ⟨41, "/home/user/a", 1, true, true, 0⟩

/-- An inactive SDK sync with tag 43. -/
def sampleSyncC : MegaSync := ⟨43, "/home/user/c", 3, true, false, 0⟩

/-- The operations that lead to `sampleThree`: three syncs are added, with tags
41, 42 and 43, and the last two are put in the unattended-disabled set. -/
def sampleThreeOps : List Op :=
  [.updateSyncSettings (some sampleSyncA) SyncAdded.NEW ⟨4⟩,
   .updateSyncSettings (some sampleSync) SyncAdded.NEW sampleUuid,
   .updateSyncSettings (some sampleSyncC) SyncAdded.NEW ⟨6⟩,
   .addUnattendedDisabledSync 42,
   .addUnattendedDisabledSync 43]

/-- A registry with three syncs, in the order 41, 42, 43, the unattended-disabled
set holding 42 and 43. -/
def sampleThree : Model :=
  (Op.runAll sampleEnv (Model.init samplePreferences false) sampleThreeOps).getD
    (Model.init samplePreferences false)

theorem sampleThree_shape :
    sampleThree.configuredSyncs = [41, 42, 43] ∧
    sampleThree.configuredSyncsMap.keys = [41, 42, 43] ∧
    sampleThree.unattendedDisabledSyncs = {42, 43} ∧
    sampleThree.configuredSyncsMap.value 42 = some sampleRecord := by
  decide

end MEGASync
